import Mathlib

/-!
Verification of the `tiff-parser` repository (Go) against its natural-language
specification.  The Go sources are shallowly embedded: the random-access source
is a list of bytes (`List Nat`, each element a byte value) together with an
explicit read-cursor position that every operation threads through, mirroring
the `io.ReadSeeker` the Go code uses.  Fallible operations return
`Except Err α` paired with the cursor position after the operation.
-/

namespace Tiff

/-- Byte order selected by the TIFF header (binary.LittleEndian / BigEndian). -/
inductive ByteOrder where
  | little
  | big
deriving DecidableEq, Repr

/-- Error taxonomy of the parser, following the spec's names.  The Go code
returns `error` values built with `errors.New`/`fmt.Errorf`; each constructor
here stands for one of those error classes. -/
inductive Err where
  | ioFailure
  | unknownByteOrder
  | unknownMagicNumber
  | subDirectoryNotFound
  | resourceNotFound
  | typeMismatch
  | lengthMismatch
deriving DecidableEq, Repr

/-- Byte at absolute position `i` of the source (0 when out of range; reads
are always guarded by explicit range checks before this is relied upon). -/
def byteAt (d : List Nat) (i : Nat) : Nat := d.getD i 0

/-- Decode two bytes as a 16-bit unsigned integer in the given byte order
(binary.ByteOrder.Uint16). -/
def u16 (bo : ByteOrder) (b0 b1 : Nat) : Nat :=
  match bo with
  | .little => b0 + 256 * b1
  | .big => b1 + 256 * b0

/-- Decode four bytes as a 32-bit unsigned integer in the given byte order
(binary.ByteOrder.Uint32). -/
def u32 (bo : ByteOrder) (b0 b1 b2 b3 : Nat) : Nat :=
  match bo with
  | .little => b0 + 256 * b1 + 65536 * b2 + 16777216 * b3
  | .big => b3 + 256 * b2 + 65536 * b1 + 16777216 * b0

/-- 16-bit word of the source at absolute offset `o`. -/
def u16At (d : List Nat) (bo : ByteOrder) (o : Nat) : Nat :=
  u16 bo (byteAt d o) (byteAt d (o + 1))

/-- 32-bit word of the source at absolute offset `o`. -/
def u32At (d : List Nat) (bo : ByteOrder) (o : Nat) : Nat :=
  u32 bo (byteAt d o) (byteAt d (o + 1)) (byteAt d (o + 2)) (byteAt d (o + 3))

/-- The `n` bytes of the source starting at absolute offset `off`. -/
def bytesAt (d : List Nat) (off n : Nat) : List Nat :=
  (List.range n).map fun i => byteAt d (off + i)

/-- Reinterpret the low 16 bits of a machine word as a signed 16-bit integer
(Go conversion `int16(u)` applied to a `uint32`). -/
def toInt16 (u : Nat) : Int :=
  if u % 65536 < 32768 then ((u % 65536 : Nat) : Int)
  else ((u % 65536 : Nat) : Int) - 65536

/-- Reinterpret a machine word as a signed 32-bit integer (Go conversion
`int32(u)` applied to a `uint32`). -/
def toInt32 (u : Nat) : Int :=
  if u % 4294967296 < 2147483648 then ((u % 4294967296 : Nat) : Int)
  else ((u % 4294967296 : Nat) : Int) - 4294967296

/-- bytes.TrimSuffix(buffer, []byte{0x0}): remove a single trailing NUL byte,
when present. -/
def trimNul (l : List Nat) : List Nat :=
  if l.getLast? = some 0 then l.dropLast else l

/-- io.ReadFull against the byte source at cursor `pos`: succeeds returning
the bytes and the advanced cursor when `n` bytes are available; a zero-length
read always succeeds without touching the source; otherwise it fails (EOF /
unexpected EOF), leaving the cursor at the end of what could be consumed. -/
def readFull (d : List Nat) (pos n : Nat) : (Except Err (List Nat)) × Nat :=
  if n = 0 then (.ok [], pos)
  else if pos + n ≤ d.length then (.ok (bytesAt d pos n), pos + n)
  else (.error .ioFailure, max pos d.length)

/-- Decoded value of an IFD entry: the Go `EntryValue` struct of pointers,
of which exactly one is populated (or none, for unhandled datatypes). -/
inductive EntryValue where
  | empty
  | ubyte (v : Nat)
  | str (s : List Nat)
  | u16v (v : Nat)
  | u16s (vs : List Nat)
  | u32v (v : Nat)
  | u32s (vs : List Nat)
  | urat (num den : Nat)
  | sbyte (v : Nat)
  | i16v (v : Int)
  | i16s (vs : List Int)
  | i32v (v : Int)
  | i32s (vs : List Int)
  | rat (num den : Int)
deriving DecidableEq, Repr

/-- An IFD entry as produced by `collect` (tiff.Entry). -/
structure EntryRec where
  id : Nat
  dataType : Nat
  length : Nat
  rawValue : Nat
  value : EntryValue
deriving DecidableEq, Repr

/-- Result map of a directory scan: Go `map[EntryID]Entry`, embedded as an
association list with replace-on-insert semantics. -/
abbrev EntryMap := List (Nat × EntryRec)

/-- Go map lookup `m[k]`. -/
def lookupEntry (m : EntryMap) (k : Nat) : Option EntryRec :=
  (m.find? fun p => p.1 == k).map Prod.snd

/-- Go map assignment `m[k] = v`: replace the binding when the key is present,
append it otherwise. -/
def insertEntry : EntryMap → Nat → EntryRec → EntryMap
  | [], k, v => [(k, v)]
  | p :: rest, k, v => if p.1 = k then (k, v) :: rest else p :: insertEntry rest k v

/-- Copy every binding of `b` into `a` (the Go `for key, value := range b`
merge loops in `Parse`). -/
def mergeEntries (a b : EntryMap) : EntryMap :=
  b.foldl (fun acc p => insertEntry acc p.1 p.2) a

/-- The `wanted` set of entry IDs: a set plus the running maximum inserted
identifier (src wanted struct). -/
structure Wanted where
  ids : List Nat
  max : Nat
deriving DecidableEq, Repr

/-- wanted.Put: insert into the set and bump the maximum when exceeded. -/
def Wanted.put (w : Wanted) (id : Nat) : Wanted :=
  { ids := if id ∈ w.ids then w.ids else w.ids ++ [id]
    max := if w.max < id then id else w.max }

/-- newWanted: fold `Put` over the given IDs starting from the empty set
(whose maximum is the zero default value). -/
def newWanted (l : List Nat) : Wanted := l.foldl Wanted.put ⟨[], 0⟩

/-- wanted.Contains. -/
def Wanted.mem (w : Wanted) (id : Nat) : Bool := w.ids.contains id

/-- Logical group an entry ID belongs to (tiff.Group). -/
inductive Group where
  | ifd0
  | ifd1
  | exif
  | gpsInfo
deriving DecidableEq, Repr

/-- Tag-to-group mapping (Go `map[EntryID]Group`). -/
abbrev Mapping := List (Nat × Group)

/-- Go map lookup on a mapping. -/
def lookupGroup (m : Mapping) (k : Nat) : Option Group :=
  (m.find? fun p => p.1 == k).map Prod.snd

/-- Go map assignment on a mapping. -/
def insertGroup : Mapping → Nat → Group → Mapping
  | [], k, v => [(k, v)]
  | p :: rest, k, v => if p.1 = k then (k, v) :: rest else p :: insertGroup rest k v

/-- Entry ID of the Exif sub-IFD pointer tag. -/
def exifID : Nat := 0x8769

/-- Entry ID of the GPSInfo sub-IFD pointer tag. -/
def gpsInfoID : Nat := 0x8825

/-- Entry ID of the thumbnail offset tag (ThumbnailOffset). -/
def thumbnailOffsetID : Nat := 0x201

/-- Entry ID of the thumbnail length tag (ThumbnailLength). -/
def thumbnailLengthID : Nat := 0x202

/-- Parser.readString: seek to `offset`, read `length` bytes, trim a single
trailing NUL byte. -/
def readString (d : List Nat) (length offset : Nat) : (Except Err (List Nat)) × Nat :=
  match readFull d offset length with
  | (.ok buf, p) => (.ok (trimNul buf), p)
  | (.error e, p) => (.error e, p)

/-- Decode `length` consecutive 16-bit words from a read buffer
(the loop `res[i] = byteOrder.Uint16(buffer[i*2 : i*2+2])`). -/
def decodeU16s (bo : ByteOrder) (buf : List Nat) (length : Nat) : List Nat :=
  (List.range length).map fun i => u16 bo (buf.getD (2 * i) 0) (buf.getD (2 * i + 1) 0)

/-- Decode `length` consecutive 32-bit words from a read buffer. -/
def decodeU32s (bo : ByteOrder) (buf : List Nat) (length : Nat) : List Nat :=
  (List.range length).map fun i =>
    u32 bo (buf.getD (4 * i) 0) (buf.getD (4 * i + 1) 0)
      (buf.getD (4 * i + 2) 0) (buf.getD (4 * i + 3) 0)

/-- Parser.readUints16: seek to `offset`, read `2*length` bytes, decode them
as 16-bit words in the session byte order. -/
def readUints16 (d : List Nat) (bo : ByteOrder) (length offset : Nat) :
    (Except Err (List Nat)) × Nat :=
  match readFull d offset (2 * length) with
  | (.ok buf, p) => (.ok (decodeU16s bo buf length), p)
  | (.error e, p) => (.error e, p)

/-- Parser.readInts16: read unsigned 16-bit words and reinterpret each as a
signed 16-bit integer. -/
def readInts16 (d : List Nat) (bo : ByteOrder) (length offset : Nat) :
    (Except Err (List Int)) × Nat :=
  match readUints16 d bo length offset with
  | (.ok vs, p) => (.ok (vs.map toInt16), p)
  | (.error e, p) => (.error e, p)

/-- Parser.readUints32: seek to `offset`, read `4*length` bytes, decode them
as 32-bit words in the session byte order. -/
def readUints32 (d : List Nat) (bo : ByteOrder) (length offset : Nat) :
    (Except Err (List Nat)) × Nat :=
  match readFull d offset (4 * length) with
  | (.ok buf, p) => (.ok (decodeU32s bo buf length), p)
  | (.error e, p) => (.error e, p)

/-- Parser.readInts32: read unsigned 32-bit words and reinterpret each as a
signed 32-bit integer. -/
def readInts32 (d : List Nat) (bo : ByteOrder) (length offset : Nat) :
    (Except Err (List Int)) × Nat :=
  match readUints32 d bo length offset with
  | (.ok vs, p) => (.ok (vs.map toInt32), p)
  | (.error e, p) => (.error e, p)

/-- Parser.readURational: seek to `offset`, read 8 bytes, decode numerator
then denominator as 32-bit words. -/
def readURational (d : List Nat) (bo : ByteOrder) (offset : Nat) :
    (Except Err (Nat × Nat)) × Nat :=
  match readFull d offset 8 with
  | (.ok buf, p) =>
    (.ok (u32 bo (buf.getD 0 0) (buf.getD 1 0) (buf.getD 2 0) (buf.getD 3 0),
          u32 bo (buf.getD 4 0) (buf.getD 5 0) (buf.getD 6 0) (buf.getD 7 0)), p)
  | (.error e, p) => (.error e, p)

/-- Parser.readRational: like readURational with both words reinterpreted as
signed 32-bit integers. -/
def readRational (d : List Nat) (bo : ByteOrder) (offset : Nat) :
    (Except Err (Int × Int)) × Nat :=
  match readFull d offset 8 with
  | (.ok buf, p) =>
    (.ok (toInt32 (u32 bo (buf.getD 0 0) (buf.getD 1 0) (buf.getD 2 0) (buf.getD 3 0)),
          toInt32 (u32 bo (buf.getD 4 0) (buf.getD 5 0) (buf.getD 6 0) (buf.getD 7 0))), p)
  | (.error e, p) => (.error e, p)

/-- Parser.readValue: dispatch on the datatype code, deciding between inline
decoding of the 4-byte payload and an external read at the payload offset.
Datatype codes follow the TIFF enumeration (1=UByte, 2=String, 3=UShort,
4=ULong, 5=URational, 6=Byte, 8=Short, 9=Long, 10=Rational); any other code
yields the empty value and no error. -/
def readValue (d : List Nat) (bo : ByteOrder) (dt length rawValue pos : Nat) :
    (Except Err EntryValue) × Nat :=
  match dt with
  | 1 => (.ok (.ubyte (rawValue % 256)), pos)
  | 2 =>
    match readString d length rawValue with
    | (.ok s, p) => (.ok (.str s), p)
    | (.error e, p) => (.error e, p)
  | 3 =>
    if length = 1 then (.ok (.u16v (rawValue % 65536)), pos)
    else
      match readUints16 d bo length rawValue with
      | (.ok vs, p) => (.ok (.u16s vs), p)
      | (.error e, p) => (.error e, p)
  | 4 =>
    if length = 1 then (.ok (.u32v rawValue), pos)
    else
      match readUints32 d bo length rawValue with
      | (.ok vs, p) => (.ok (.u32s vs), p)
      | (.error e, p) => (.error e, p)
  | 5 =>
    match readURational d bo rawValue with
    | (.ok nd, p) => (.ok (.urat nd.1 nd.2), p)
    | (.error e, p) => (.error e, p)
  | 6 => (.ok (.sbyte (rawValue % 256)), pos)
  | 8 =>
    if length = 1 then (.ok (.i16v (toInt16 rawValue)), pos)
    else
      match readInts16 d bo length rawValue with
      | (.ok vs, p) => (.ok (.i16s vs), p)
      | (.error e, p) => (.error e, p)
  | 9 =>
    if length = 1 then (.ok (.i32v (toInt32 rawValue)), pos)
    else
      match readInts32 d bo length rawValue with
      | (.ok vs, p) => (.ok (.i32s vs), p)
      | (.error e, p) => (.error e, p)
  | 10 =>
    match readRational d bo rawValue with
    | (.ok nd, p) => (.ok (.rat nd.1 nd.2), p)
    | (.error e, p) => (.error e, p)
  | _ => (.ok .empty, pos)

/-- Loop body of Parser.collect: for each remaining entry, seek to the entry
position, read its 12-byte record, decode it, store it when wanted, and stop
as soon as the decoded identifier reaches the wanted-set's maximum.  Besides
the Go results (entry map or error, final cursor) it also returns the number
of 12-byte entry reads issued, which instruments the early-termination
behavior without altering it. -/
def collectLoop (d : List Nat) (bo : ByteOrder) (w : Wanted) :
    Nat → Nat → Nat → EntryMap → (Except Err EntryMap) × Nat × Nat
  | 0, _entryOff, pos, acc => (.ok acc, pos, 0)
  | fuel + 1, entryOff, _pos, acc =>
    match readFull d entryOff 12 with
    | (.error e, p) => (.error e, p, 1)
    | (.ok buf, afterRead) =>
      let id := u16 bo (buf.getD 0 0) (buf.getD 1 0)
      if w.mem id then
        let dt := u16 bo (buf.getD 2 0) (buf.getD 3 0)
        let len := u32 bo (buf.getD 4 0) (buf.getD 5 0) (buf.getD 6 0) (buf.getD 7 0)
        let raw := u32 bo (buf.getD 8 0) (buf.getD 9 0) (buf.getD 10 0) (buf.getD 11 0)
        match readValue d bo dt len raw afterRead with
        | (.error e, p) => (.error e, p, 1)
        | (.ok v, p) =>
          let acc1 := insertEntry acc id ⟨id, dt, len, raw, v⟩
          if w.max ≤ id then (.ok acc1, p, 1)
          else
            let r := collectLoop d bo w fuel (entryOff + 12) p acc1
            (r.1, r.2.1, r.2.2 + 1)
      else
        if w.max ≤ id then (.ok acc, afterRead, 1)
        else
          let r := collectLoop d bo w fuel (entryOff + 12) afterRead acc
          (r.1, r.2.1, r.2.2 + 1)

/-- Parser.collect: seek to the directory offset, read the 2-byte entry
count, and run the bounded scan.  The incoming cursor position is
irrelevant because of the initial absolute seek. -/
def collect (d : List Nat) (bo : ByteOrder) (_pos startingOffset : Nat) (w : Wanted) :
    (Except Err EntryMap) × Nat × Nat :=
  match readFull d startingOffset 2 with
  | (.error e, p) => (.error e, p, 0)
  | (.ok buf, p2) =>
    let numEntries := u16 bo (buf.getD 0 0) (buf.getD 1 0)
    collectLoop d bo w numEntries (startingOffset + 2) p2 []

/-- One step of the partition loop at the top of Parser.Parse: route a
requested ID to the wanted-set of its group (adding the corresponding
pointer tag to the root set for sub-IFD groups); IDs with no mapping entry
(and IDs mapped to IFD#1, for which the switch has no case) contribute
nothing. -/
def partitionStep (mapping : Mapping) (acc : Wanted × Wanted × Wanted) (id : Nat) :
    Wanted × Wanted × Wanted :=
  match lookupGroup mapping id with
  | some .ifd0 => (acc.1.put id, acc.2.1, acc.2.2)
  | some .exif => (acc.1.put exifID, acc.2.1.put id, acc.2.2)
  | some .gpsInfo => (acc.1.put gpsInfoID, acc.2.1, acc.2.2.put id)
  | some .ifd1 => acc
  | none => acc

/-- Partition the requested IDs into the three wanted-sets (root, Exif,
GPSInfo) according to the mapping (the loop over `ids` at the top of
Parser.Parse). -/
def partitionWanted (mapping : Mapping) (ids : List Nat) : Wanted × Wanted × Wanted :=
  ids.foldl (partitionStep mapping) (⟨[], 0⟩, ⟨[], 0⟩, ⟨[], 0⟩)

/-- GPSInfo phase of Parser.Parse: when GPS IDs were requested, require the
root scan to have produced the GPSInfo pointer entry, then collect the
sub-IFD at its decoded offset and merge the results. -/
def gpsPhase (d : List Nat) (bo : ByteOrder) (wG : Wanted) (m0 entries : EntryMap)
    (pos : Nat) : (Except Err EntryMap) × Nat :=
  if wG.ids = [] then (.ok entries, pos)
  else
    match lookupEntry m0 gpsInfoID with
    | none => (.error .subDirectoryNotFound, pos)
    | some g =>
      match collect d bo pos g.rawValue wG with
      | (.error e, p, _) => (.error e, p)
      | (.ok mG, p, _) => (.ok (mergeEntries entries mG), p)

/-- Parser.Parse: partition the requested IDs, collect the root directory,
emit every root entry except the two pointer tags, then run the Exif phase
(collect the Exif sub-IFD when Exif IDs were requested, failing when the
pointer entry is absent) followed by the GPSInfo phase. -/
def parse (d : List Nat) (bo : ByteOrder) (mapping : Mapping)
    (firstIFDOffset : Nat) (ids : List Nat) (pos : Nat) : (Except Err EntryMap) × Nat :=
  let ws := partitionWanted mapping ids
  match collect d bo pos firstIFDOffset ws.1 with
  | (.error e, p, _) => (.error e, p)
  | (.ok m0, p0, _) =>
    let entries := m0.filter fun pr => pr.1 != exifID && pr.1 != gpsInfoID
    if ws.2.1.ids = [] then gpsPhase d bo ws.2.2 m0 entries p0
    else
      match lookupEntry m0 exifID with
      | none => (.error .subDirectoryNotFound, p0)
      | some e =>
        match collect d bo p0 e.rawValue ws.2.1 with
        | (.error err, p, _) => (.error err, p)
        | (.ok mE, p1, _) => gpsPhase d bo ws.2.2 m0 (mergeEntries entries mE) p1

/-- Resolution of one thumbnail tag inside Parser.ReadThumbnail: an absent
tag silently leaves the zero default in place; a present tag whose decoded
value is not a uint32 scalar is an error. -/
def resolveUint32Tag (entries : EntryMap) (tag : Nat) : Except Err Nat :=
  match lookupEntry entries tag with
  | some el =>
    match el.value with
    | .u32v v => .ok v
    | _ => .error .resourceNotFound
  | none => .ok 0

/-- Parser.ReadThumbnail: skip past the root directory's entries to its
trailing next-directory pointer, collect the thumbnail offset/length tags
from IFD#1, and read `length` bytes at `offset`. -/
def readThumbnail (d : List Nat) (bo : ByteOrder) (firstIFDOffset _pos : Nat) :
    (Except Err (List Nat)) × Nat :=
  match readFull d firstIFDOffset 2 with
  | (.error e, p) => (.error e, p)
  | (.ok buf, _) =>
    let numEntries := u16 bo (buf.getD 0 0) (buf.getD 1 0)
    let offset2 := firstIFDOffset + 2 + numEntries * 12
    match readFull d offset2 4 with
    | (.error e, p) => (.error e, p)
    | (.ok buf4, p4) =>
      let offsetToIdf1 := u32 bo (buf4.getD 0 0) (buf4.getD 1 0) (buf4.getD 2 0) (buf4.getD 3 0)
      match collect d bo p4 offsetToIdf1 (newWanted [thumbnailOffsetID, thumbnailLengthID]) with
      | (.error e, p, _) => (.error e, p)
      | (.ok entries, p1, _) =>
        match resolveUint32Tag entries thumbnailOffsetID with
        | .error e => (.error e, p1)
        | .ok tOff =>
          match resolveUint32Tag entries thumbnailLengthID with
          | .error e => (.error e, p1)
          | .ok tLen =>
            match readFull d tOff tLen with
            | (.error e, p) => (.error e, p)
            | (.ok bytes, p) => (.ok bytes, p)

/-- readEndianness: the two marker bytes are decoded with the little-endian
order (their value is byte-order independent by design) and matched against
the Intel and Motorola markers. -/
def readEndianness (b0 b1 : Nat) : Except Err ByteOrder :=
  let value := b0 + 256 * b1
  if value = 0x4949 then .ok .little
  else if value = 0x4D4D then .ok .big
  else .error .unknownByteOrder

/-- validateMagicNumber: the magic number, read in the resolved byte order,
must be one of the two TIFF-standard values or the two ORF-specific values. -/
def validateMagicNumber (bo : ByteOrder) (b2 b3 : Nat) : Except Err Unit :=
  let magicNumber := u16 bo b2 b3
  if magicNumber ≠ 0x002A ∧ magicNumber ≠ 0x2A00 ∧
      magicNumber ≠ 0x4F52 ∧ magicNumber ≠ 0x524F then
    .error .unknownMagicNumber
  else .ok ()

/-- NewParser: read the 8-byte header, resolve the byte order, validate the
magic number, and return the byte order, the first-IFD offset (bytes 4-7 in
the resolved byte order) and the cursor position after the header read. -/
def newParser (d : List Nat) : Except Err (ByteOrder × Nat × Nat) :=
  match readFull d 0 8 with
  | (.error _, _) => .error .ioFailure
  | (.ok h, _) =>
    match readEndianness (h.getD 0 0) (h.getD 1 0) with
    | .error e => .error e
    | .ok bo =>
      match validateMagicNumber bo (h.getD 2 0) (h.getD 3 0) with
      | .error e => .error e
      | .ok _ =>
        .ok (bo, u32 bo (h.getD 4 0) (h.getD 5 0) (h.getD 6 0) (h.getD 7 0), 8)

/-- Modelled from the spec, for the refinement claim about header decoding:
a deterministic function of the 8 header bytes.  The 2-byte marker value
selects the byte order (0x4949 little-endian, 0x4D4D big-endian, anything
else is an unknown byte order); bytes 2-3, read in the resolved byte order,
must be one of the four accepted magic numbers; bytes 4-7, read in the
resolved byte order, give the unsigned 32-bit offset of the first
directory. -/
def decodeHeaderSpec (b0 b1 b2 b3 b4 b5 b6 b7 : Nat) : Except Err (ByteOrder × Nat) :=
  let marker := 256 * b0 + b1
  if marker = 0x4949 ∨ marker = 0x4D4D then
    let bo : ByteOrder := if marker = 0x4949 then .little else .big
    let magic := u16 bo b2 b3
    if magic = 0x002A ∨ magic = 0x2A00 ∨ magic = 0x4F52 ∨ magic = 0x524F then
      .ok (bo, u32 bo b4 b5 b6 b7)
    else .error .unknownMagicNumber
  else .error .unknownByteOrder

/-- An IFD entry of the accessor-based API (the Entry struct with ReadString,
ReadUint16, ReadUint32, ReadURational methods). -/
structure AEntry where
  id : Nat
  dataType : Nat
  length : Nat
  rawValue : Nat
deriving DecidableEq, Repr

/-- Entry.ReadString: fails when the entry's datatype is not String (code 2);
otherwise seek to the raw payload, read `length` bytes and trim a single
trailing NUL byte. -/
def AEntry.readString (e : AEntry) (d : List Nat) (pos : Nat) :
    (Except Err (List Nat)) × Nat :=
  if e.dataType ≠ 2 then (.error .typeMismatch, pos)
  else
    match readFull d e.rawValue e.length with
    | (.ok buf, p) => (.ok (trimNul buf), p)
    | (.error err, p) => (.error err, p)

/-- Entry.ReadUint16: fails when the datatype is not UShort (code 3) or when
the count is not 1; otherwise the value is the payload truncated to 16
bits. -/
def AEntry.readUint16 (e : AEntry) : Except Err Nat :=
  if e.dataType ≠ 3 then .error .typeMismatch
  else if e.length ≠ 1 then .error .lengthMismatch
  else .ok (e.rawValue % 65536)

/-- Entry.ReadUint32: fails when the datatype is not ULong (code 4) or when
the count is not 1; otherwise the value is the payload itself. -/
def AEntry.readUint32 (e : AEntry) : Except Err Nat :=
  if e.dataType ≠ 4 then .error .typeMismatch
  else if e.length ≠ 1 then .error .lengthMismatch
  else .ok e.rawValue

/-- Entry.ReadURational: fails when the datatype is not URational (code 5);
otherwise seek to the payload offset and read numerator and denominator as
two consecutive 32-bit words. -/
def AEntry.readURational (e : AEntry) (d : List Nat) (bo : ByteOrder) (pos : Nat) :
    (Except Err (Nat × Nat)) × Nat :=
  if e.dataType ≠ 5 then (.error .typeMismatch, pos)
  else
    match Tiff.readURational d bo e.rawValue with
    | (.ok nd, p) => (.ok nd, p)
    | (.error err, p) => (.error err, p)

/-- WithMapping observed through Go's reference semantics: every parser
built by NewParser stores the package-level `Defaults` map itself (a map
value in Go is a reference), so the assignment loop of WithMapping writes
through that reference into the single shared map.  The function returns the
new contents of the shared Defaults map. -/
def withMapping (defaults : Mapping) (m : Mapping) : Mapping :=
  m.foldl (fun acc kv => insertGroup acc kv.1 kv.2) defaults

/-- Mapping held by any parser built by NewParser: the parser stores a
reference to the shared Defaults map, so its view is always the current
contents of that map. -/
def mappingOfDefaultParser (defaults : Mapping) : Mapping := defaults

/-- Reference directory used by the early-termination scenario of the spec:
four entries with increasing identifiers, each of unsigned 16-bit type with
count 1 and payload 7. -/
def demoEntry (id : Nat) : List Nat := [id % 256, id / 256, 3, 0, 1, 0, 0, 0, 7, 0, 0, 0]

/-- Little-endian directory with entries at identifiers 5, 10, 20, 30. -/
def demoDir : List Nat := [4, 0] ++ demoEntry 5 ++ demoEntry 10 ++ demoEntry 20 ++ demoEntry 30

/-- Little-endian TIFF source whose root directory has no entries and whose
IFD#1 (at offset 14) also has no entries, so the thumbnail tags are absent. -/
def thumbDemo : List Nat := [73, 73, 42, 0, 8, 0, 0, 0] ++ [0, 0] ++ [14, 0, 0, 0] ++ [0, 0]

lemma bytesAt_getD (d : List Nat) (off n k : Nat) (hk : k < n) :
    (bytesAt d off n).getD k 0 = byteAt d (off + k) := by
  simp [bytesAt, List.getD_eq_getElem?_getD, List.getElem?_map, List.getElem?_range hk]

lemma readFull_pos_ok (d : List Nat) (pos n : Nat) (h : pos + n ≤ d.length) :
    readFull d pos n = (.ok (bytesAt d pos n), pos + n) := by
  rcases Nat.eq_zero_or_pos n with hn | hn
  · subst hn; simp [readFull, bytesAt]
  · simp [readFull, Nat.pos_iff_ne_zero.mp hn, h]

lemma readFull_pos_err (d : List Nat) (pos n : Nat) (hn : n ≠ 0)
    (h : ¬ pos + n ≤ d.length) :
    readFull d pos n = (.error .ioFailure, max pos d.length) := by
  simp [readFull, hn, h]

lemma u16_bytesAt (d : List Nat) (bo : ByteOrder) (off n i : Nat)
    (h1 : i + 1 < n) :
    u16 bo ((bytesAt d off n).getD i 0) ((bytesAt d off n).getD (i + 1) 0) =
      u16At d bo (off + i) := by
  rw [bytesAt_getD d off n i (by omega), bytesAt_getD d off n (i + 1) h1]
  simp [u16At, Nat.add_assoc]

lemma u32_bytesAt (d : List Nat) (bo : ByteOrder) (off n i : Nat)
    (h3 : i + 3 < n) :
    u32 bo ((bytesAt d off n).getD i 0) ((bytesAt d off n).getD (i + 1) 0)
      ((bytesAt d off n).getD (i + 2) 0) ((bytesAt d off n).getD (i + 3) 0) =
      u32At d bo (off + i) := by
  rw [bytesAt_getD d off n i (by omega), bytesAt_getD d off n (i + 1) (by omega),
    bytesAt_getD d off n (i + 2) (by omega), bytesAt_getD d off n (i + 3) h3]
  simp [u32At, Nat.add_assoc]

lemma lookupEntry_nil (k : Nat) : lookupEntry [] k = none := rfl

lemma lookupEntry_cons (p : Nat × EntryRec) (rest : EntryMap) (k : Nat) :
    lookupEntry (p :: rest) k = if p.1 = k then some p.2 else lookupEntry rest k := by
  by_cases h : p.1 = k
  · simp [lookupEntry, List.find?_cons_of_pos, h]
  · simp [lookupEntry, List.find?_cons_of_neg, h]

lemma lookupEntry_insert_self (m : EntryMap) (k : Nat) (v : EntryRec) :
    lookupEntry (insertEntry m k v) k = some v := by
  induction m with
  | nil => simp [insertEntry, lookupEntry_cons]
  | cons p rest ih =>
    by_cases h : p.1 = k
    · simp [insertEntry, h, lookupEntry_cons]
    · simp [insertEntry, h, lookupEntry_cons, ih]

lemma lookupEntry_insert_ne (m : EntryMap) (k q : Nat) (v : EntryRec) (h : q ≠ k) :
    lookupEntry (insertEntry m k v) q = lookupEntry m q := by
  induction m with
  | nil => simp [insertEntry, lookupEntry_cons, lookupEntry_nil, Ne.symm h]
  | cons p rest ih =>
    by_cases hp : p.1 = k
    · rw [insertEntry]
      simp only [hp, if_pos]
      rw [lookupEntry_cons, lookupEntry_cons, hp]
      simp [Ne.symm h]
    · rw [insertEntry]
      simp only [hp, if_neg, if_false]
      rw [lookupEntry_cons, lookupEntry_cons, ih]

lemma lookupGroup_nil (k : Nat) : lookupGroup [] k = none := rfl

lemma lookupGroup_cons (p : Nat × Group) (rest : Mapping) (k : Nat) :
    lookupGroup (p :: rest) k = if p.1 = k then some p.2 else lookupGroup rest k := by
  by_cases h : p.1 = k
  · simp [lookupGroup, List.find?_cons_of_pos, h]
  · simp [lookupGroup, List.find?_cons_of_neg, h]

lemma lookupGroup_insert_self (m : Mapping) (k : Nat) (v : Group) :
    lookupGroup (insertGroup m k v) k = some v := by
  induction m with
  | nil => simp [insertGroup, lookupGroup_cons]
  | cons p rest ih =>
    by_cases h : p.1 = k
    · simp [insertGroup, h, lookupGroup_cons]
    · simp [insertGroup, h, lookupGroup_cons, ih]

lemma lookupGroup_insert_ne (m : Mapping) (k q : Nat) (v : Group) (h : q ≠ k) :
    lookupGroup (insertGroup m k v) q = lookupGroup m q := by
  induction m with
  | nil => simp [insertGroup, lookupGroup_cons, lookupGroup_nil, Ne.symm h]
  | cons p rest ih =>
    by_cases hp : p.1 = k
    · rw [insertGroup]
      simp only [hp, if_pos]
      rw [lookupGroup_cons, lookupGroup_cons, hp]
      simp [Ne.symm h]
    · rw [insertGroup]
      simp only [hp, if_neg, if_false]
      rw [lookupGroup_cons, lookupGroup_cons, ih]

lemma lookupGroup_none_of_notmem (m : Mapping) (k : Nat) (h : k ∉ m.map Prod.fst) :
    lookupGroup m k = none := by
  induction m with
  | nil => rfl
  | cons p rest ih =>
    simp only [List.map_cons, List.mem_cons, not_or] at h
    rw [lookupGroup_cons, if_neg (Ne.symm h.1), ih h.2]

lemma withMapping_cons (acc : Mapping) (p : Nat × Group) (rest : Mapping) :
    withMapping acc (p :: rest) = withMapping (insertGroup acc p.1 p.2) rest := by
  simp [withMapping]

lemma withMapping_lookup_none (acc m : Mapping) (k : Nat)
    (h : lookupGroup m k = none) :
    lookupGroup (withMapping acc m) k = lookupGroup acc k := by
  induction m generalizing acc with
  | nil => simp [withMapping]
  | cons p rest ih =>
    rw [lookupGroup_cons] at h
    by_cases hp : p.1 = k
    · simp [hp] at h
    · rw [if_neg hp] at h
      rw [withMapping_cons, ih _ h, lookupGroup_insert_ne _ _ _ _ (Ne.symm hp)]

lemma withMapping_lookup (defaults m : Mapping) (hm : (m.map Prod.fst).Nodup)
    (k : Nat) (v : Group) (hkv : lookupGroup m k = some v) :
    lookupGroup (withMapping defaults m) k = some v := by
  induction m generalizing defaults with
  | nil => simp [lookupGroup_nil] at hkv
  | cons p rest ih =>
    rw [withMapping_cons]
    rw [lookupGroup_cons] at hkv
    simp only [List.map_cons, List.nodup_cons] at hm
    by_cases hp : p.1 = k
    · rw [if_pos hp] at hkv
      have hnone : lookupGroup rest k = none :=
        lookupGroup_none_of_notmem _ _ (hp ▸ hm.1)
      rw [withMapping_lookup_none _ _ _ hnone, hp, lookupGroup_insert_self]
      exact hkv
    · rw [if_neg hp] at hkv
      exact ih _ hm.2 hkv

/-- C10: `WithMapping` writes through the parser's reference into the shared
package-level Defaults map, so after `p.WithMapping(m)` every parser holding
the default mapping — including every parser subsequently created by
`NewParser` — observes the entries of `m` in its mapping. -/
theorem withMapping_mutates_shared_defaults (defaults m : Mapping)
    (hm : (m.map Prod.fst).Nodup) (k : Nat) (v : Group)
    (hkv : lookupGroup m k = some v) :
    lookupGroup (mappingOfDefaultParser (withMapping defaults m)) k = some v :=
  withMapping_lookup defaults m hm k v hkv

/-- Witness for C10 at a concrete mapping extension. -/
theorem withMapping_mutates_shared_defaults_witness :
    lookupGroup (mappingOfDefaultParser
      (withMapping [(274, Group.ifd0)] [(34850, Group.exif)])) 34850 = some Group.exif :=
  withMapping_mutates_shared_defaults [(274, Group.ifd0)] [(34850, Group.exif)]
    (by simp) 34850 Group.exif rfl

/-- C6: each typed accessor of the entry API fails with a type-mismatch error
when the entry's datatype differs from the accessor's datatype — in
particular the string accessor on an unsigned 32-bit entry always fails —
and the scalar accessors additionally fail with a length-mismatch error when
the count is not 1. -/
theorem accessor_type_guards (e : AEntry) (d : List Nat) (bo : ByteOrder) (pos : Nat) :
    (e.dataType ≠ 2 → (e.readString d pos).1 = .error .typeMismatch) ∧
    (e.dataType = 4 → (e.readString d pos).1 = .error .typeMismatch) ∧
    (e.dataType ≠ 3 → e.readUint16 = .error .typeMismatch) ∧
    (e.dataType = 3 → e.length ≠ 1 → e.readUint16 = .error .lengthMismatch) ∧
    (e.dataType ≠ 4 → e.readUint32 = .error .typeMismatch) ∧
    (e.dataType = 4 → e.length ≠ 1 → e.readUint32 = .error .lengthMismatch) ∧
    (e.dataType ≠ 5 → (e.readURational d bo pos).1 = .error .typeMismatch) := by
  refine ⟨?_, ?_, ?_, ?_, ?_, ?_, ?_⟩
  · intro h; simp [AEntry.readString, h]
  · intro h; simp [AEntry.readString, h]
  · intro h; simp [AEntry.readUint16, h]
  · intro h hl; simp [AEntry.readUint16, h, hl]
  · intro h; simp [AEntry.readUint32, h]
  · intro h hl; simp [AEntry.readUint32, h, hl]
  · intro h; simp [AEntry.readURational, h]

/-- Witness for C6: the string accessor on an unsigned 32-bit entry fails
with a type mismatch, and a scalar accessor on a count-2 entry fails with a
length mismatch. -/
theorem accessor_type_guards_witness :
    ((AEntry.mk 256 4 1 0).readString [] 0).1 = Except.error Err.typeMismatch ∧
    (AEntry.mk 256 3 2 5).readUint16 = Except.error Err.lengthMismatch :=
  ⟨(accessor_type_guards ⟨256, 4, 1, 0⟩ [] .little 0).2.1 rfl,
   (accessor_type_guards ⟨256, 3, 2, 5⟩ [] .little 0).2.2.2.1 rfl (by decide)⟩

/-- Counterexample for C5: a source whose IFD#1 contains neither the
thumbnail-offset tag nor the thumbnail-length tag, on which ReadThumbnail
does not fail — it silently returns the empty byte range. -/
theorem readThumbnail_absent_tags_counterexample :
    (collect thumbDemo .little 14 14 (newWanted [thumbnailOffsetID, thumbnailLengthID])).1 =
      .ok [] ∧
    readThumbnail thumbDemo .little 8 8 = (.ok [], 0) :=
  ⟨rfl, rfl⟩

/-- C5 (amended): when the secondary directory scan succeeds, and any
thumbnail tag that is present decodes to a uint32 scalar, a missing
thumbnail-offset or thumbnail-length tag does not make ReadThumbnail fail
with ResourceNotFound: the missing value silently defaults to zero and
ReadThumbnail performs the plain read with the defaulted values — the empty
byte range when the length tag is absent (or both are), and the read of the
present length at offset zero when only the offset tag is absent; such a
read never produces ResourceNotFound. -/
theorem readThumbnail_absent_tags (d : List Nat) (bo : ByteOrder) (f pos : Nat)
    (m : EntryMap) (p c : Nat)
    (h2 : f + 2 ≤ d.length)
    (h4 : f + 2 + u16At d bo f * 12 + 4 ≤ d.length)
    (hcol : collect d bo (f + 2 + u16At d bo f * 12 + 4)
      (u32At d bo (f + 2 + u16At d bo f * 12))
      (newWanted [thumbnailOffsetID, thumbnailLengthID]) = (.ok m, p, c)) :
    (lookupEntry m thumbnailOffsetID = none → lookupEntry m thumbnailLengthID = none →
      readThumbnail d bo f pos = (.ok [], 0)) ∧
    (∀ el v, lookupEntry m thumbnailOffsetID = some el → el.value = .u32v v →
      lookupEntry m thumbnailLengthID = none →
      readThumbnail d bo f pos = (.ok [], v)) ∧
    (∀ el L, lookupEntry m thumbnailOffsetID = none →
      lookupEntry m thumbnailLengthID = some el → el.value = .u32v L →
      readThumbnail d bo f pos = readFull d 0 L) ∧
    (∀ pp nn, (readFull d pp nn).1 ≠ .error .resourceNotFound) := by
  have hne : u16 bo ((bytesAt d f 2).getD 0 0) ((bytesAt d f 2).getD 1 0) =
      u16At d bo f := by
    have := u16_bytesAt d bo f 2 0 (by omega)
    simpa using this
  have h4' : (f + 2 + u16At d bo f * 12) + 4 ≤ d.length := by omega
  have hid : u32 bo ((bytesAt d (f + 2 + u16At d bo f * 12) 4).getD 0 0)
      ((bytesAt d (f + 2 + u16At d bo f * 12) 4).getD 1 0)
      ((bytesAt d (f + 2 + u16At d bo f * 12) 4).getD 2 0)
      ((bytesAt d (f + 2 + u16At d bo f * 12) 4).getD 3 0) =
      u32At d bo (f + 2 + u16At d bo f * 12) := by
    have := u32_bytesAt d bo (f + 2 + u16At d bo f * 12) 4 0 (by omega)
    simpa using this
  have hstep : readThumbnail d bo f pos =
      (match resolveUint32Tag m thumbnailOffsetID with
       | .error e => (.error e, p)
       | .ok tOff =>
         match resolveUint32Tag m thumbnailLengthID with
         | .error e => (.error e, p)
         | .ok tLen =>
           match readFull d tOff tLen with
           | (.error e, pp) => (.error e, pp)
           | (.ok bytes, pp) => (.ok bytes, pp)) := by
    rw [readThumbnail, readFull_pos_ok d f 2 h2]
    simp only [hne]
    rw [readFull_pos_ok d (f + 2 + u16At d bo f * 12) 4 h4']
    simp only [hid]
    rw [hcol]
  refine ⟨?_, ?_, ?_, ?_⟩
  · intro hoff hlen
    rw [hstep]
    simp [resolveUint32Tag, hoff, hlen, readFull]
  · intro el v hoffS hval hlen
    rw [hstep]
    simp [resolveUint32Tag, hoffS, hval, hlen, readFull]
  · intro el L hoff hlenS hval
    rw [hstep]
    simp only [resolveUint32Tag, hoff, hlenS, hval]
    rcases hrf : readFull d 0 L with ⟨res, pp⟩
    cases res <;> rfl
  · intro pp nn
    rw [readFull]
    split_ifs <;> simp

/-- Witness for C5's amended theorem at the concrete counterexample source
(both tags absent). -/
theorem readThumbnail_absent_tags_witness :
    readThumbnail thumbDemo .little 8 8 = (.ok [], 0) :=
  (readThumbnail_absent_tags thumbDemo .little 8 8 [] 16 0 (by decide) (by decide)
    rfl).1 rfl rfl

/-- C9: scanning any directory with an empty wanted-set reads at most the
first entry (the set's maximum is the zero default, and every identifier is
greater than or equal to it) and returns an empty result map with no
error. -/
theorem collect_empty_wanted (d : List Nat) (bo : ByteOrder) (pos off : Nat)
    (h2 : off + 2 ≤ d.length)
    (h14 : 1 ≤ u16At d bo off → off + 2 + 12 ≤ d.length) :
    (collect d bo pos off (newWanted [])).1 = .ok [] ∧
    (collect d bo pos off (newWanted [])).2.2 ≤ 1 := by
  have hne : u16 bo ((bytesAt d off 2).getD 0 0) ((bytesAt d off 2).getD 1 0) =
      u16At d bo off := by
    have := u16_bytesAt d bo off 2 0 (by omega)
    simpa using this
  have hcol : collect d bo pos off (newWanted []) =
      collectLoop d bo (newWanted []) (u16At d bo off) (off + 2) (off + 2) [] := by
    rw [collect, readFull_pos_ok d off 2 h2]
    simp only [hne]
  rw [hcol]
  cases hcase : u16At d bo off with
  | zero => simp [collectLoop]
  | succ n =>
    have h12 : (off + 2) + 12 ≤ d.length := by
      have := h14 (by omega)
      omega
    rw [collectLoop, readFull_pos_ok d (off + 2) 12 h12]
    simp [newWanted, Wanted.mem]

/-- Witness for C9 on the reference directory. -/
theorem collect_empty_wanted_witness :
    (collect demoDir .little 0 0 (newWanted [])).1 = .ok [] ∧
    (collect demoDir .little 0 0 (newWanted [])).2.2 ≤ 1 :=
  collect_empty_wanted demoDir .little 0 0 (by decide) (by intro h; decide)

/-- C3: header decoding is the deterministic function of the 8 header bytes
described by the spec — marker 0x4949 selects little-endian, 0x4D4D selects
big-endian, any other marker fails with the unknown-byte-order error; the
magic number read in the resolved byte order must be one of
0x002A/0x2A00/0x4F52/0x524F or decoding fails with the unknown-magic-number
error; on success bytes 4-7 in the resolved byte order give the first
directory offset. -/
theorem newParser_matches_headerSpec
    (b0 b1 b2 b3 b4 b5 b6 b7 : Nat) (rest : List Nat)
    (h0 : b0 < 256) (h1 : b1 < 256) :
    newParser (b0 :: b1 :: b2 :: b3 :: b4 :: b5 :: b6 :: b7 :: rest) =
      (decodeHeaderSpec b0 b1 b2 b3 b4 b5 b6 b7).map fun pr => (pr.1, pr.2, 8) := by
  have hlen : (0 : Nat) + 8 ≤ (b0 :: b1 :: b2 :: b3 :: b4 :: b5 :: b6 :: b7 :: rest).length := by
    simp
  by_cases hm : b0 + 256 * b1 = 18761
  · have hm2 : 256 * b0 + b1 = 18761 := by omega
    by_cases hmag : u16 .little b2 b3 = 42 ∨ u16 .little b2 b3 = 10752 ∨
        u16 .little b2 b3 = 20306 ∨ u16 .little b2 b3 = 21071
    · rcases hmag with hc | hc | hc | hc <;>
        simp [newParser, readFull, hlen, bytesAt, List.range_succ, byteAt,
          readEndianness, validateMagicNumber, decodeHeaderSpec, Except.map, hm, hm2, hc]
    · push_neg at hmag
      obtain ⟨n1, n2, n3, n4⟩ := hmag
      simp [newParser, readFull, hlen, bytesAt, List.range_succ, byteAt,
        readEndianness, validateMagicNumber, decodeHeaderSpec, Except.map, hm, hm2,
        n1, n2, n3, n4]
  · by_cases hmm : b0 + 256 * b1 = 19789
    · have hmm2 : 256 * b0 + b1 = 19789 := by omega
      by_cases hmag : u16 .big b2 b3 = 42 ∨ u16 .big b2 b3 = 10752 ∨
          u16 .big b2 b3 = 20306 ∨ u16 .big b2 b3 = 21071
      · rcases hmag with hc | hc | hc | hc <;>
          simp [newParser, readFull, hlen, bytesAt, List.range_succ, byteAt,
            readEndianness, validateMagicNumber, decodeHeaderSpec, Except.map,
            hm, hmm, hmm2, hc]
      · push_neg at hmag
        obtain ⟨n1, n2, n3, n4⟩ := hmag
        simp [newParser, readFull, hlen, bytesAt, List.range_succ, byteAt,
          readEndianness, validateMagicNumber, decodeHeaderSpec, Except.map,
          hm, hmm, hmm2, n1, n2, n3, n4]
    · have hs1 : ¬ 256 * b0 + b1 = 18761 := by omega
      have hs2 : ¬ 256 * b0 + b1 = 19789 := by omega
      simp [newParser, readFull, hlen, bytesAt, List.range_succ, byteAt,
        readEndianness, decodeHeaderSpec, Except.map, hm, hmm, hs1, hs2]

/-- Witness for C3 at a concrete little-endian TIFF header. -/
theorem newParser_matches_headerSpec_witness :
    newParser ([73, 73, 42, 0, 8, 0, 0, 0] : List Nat) =
      (decodeHeaderSpec 73 73 42 0 8 0 0 0).map fun pr => (pr.1, pr.2, 8) :=
  newParser_matches_headerSpec 73 73 42 0 8 0 0 0 [] (by decide) (by decide)

lemma decodeU16s_bytesAt (d : List Nat) (bo : ByteOrder) (off len : Nat) :
    decodeU16s bo (bytesAt d off (2 * len)) len =
      (List.range len).map fun i => u16At d bo (off + 2 * i) := by
  unfold decodeU16s
  apply List.map_congr_left
  intro i hi
  rw [List.mem_range] at hi
  rw [bytesAt_getD d off (2 * len) (2 * i) (by omega),
    bytesAt_getD d off (2 * len) (2 * i + 1) (by omega)]
  simp [u16At, Nat.add_assoc]

lemma decodeU32s_bytesAt (d : List Nat) (bo : ByteOrder) (off len : Nat) :
    decodeU32s bo (bytesAt d off (4 * len)) len =
      (List.range len).map fun i => u32At d bo (off + 4 * i) := by
  unfold decodeU32s
  apply List.map_congr_left
  intro i hi
  rw [List.mem_range] at hi
  rw [bytesAt_getD d off (4 * len) (4 * i) (by omega),
    bytesAt_getD d off (4 * len) (4 * i + 1) (by omega),
    bytesAt_getD d off (4 * len) (4 * i + 2) (by omega),
    bytesAt_getD d off (4 * len) (4 * i + 3) (by omega)]
  simp [u32At, Nat.add_assoc]

/-- C2: the value resolver decodes 16-bit and 32-bit scalars (signed and
unsigned) inline from the 4-byte payload exactly when the count is 1 and
otherwise reads `count` fixed-width units from the source at the payload
offset; strings are always read from the source at the payload offset with a
single trailing NUL byte trimmed; rationals (signed and unsigned) are always
read from the source at the payload offset as two consecutive 32-bit words
(numerator then denominator), never inline, regardless of count. -/
theorem readValue_inline_external (d : List Nat) (bo : ByteOrder) (len raw pos : Nat) :
    (readValue d bo 3 1 raw pos = (.ok (.u16v (raw % 65536)), pos)) ∧
    (2 ≤ len → readValue d bo 3 len raw pos =
      if raw + 2 * len ≤ d.length then
        (.ok (.u16s ((List.range len).map fun i => u16At d bo (raw + 2 * i))), raw + 2 * len)
      else (.error .ioFailure, max raw d.length)) ∧
    (readValue d bo 3 0 raw pos = (.ok (.u16s []), raw)) ∧
    (readValue d bo 4 1 raw pos = (.ok (.u32v raw), pos)) ∧
    (2 ≤ len → readValue d bo 4 len raw pos =
      if raw + 4 * len ≤ d.length then
        (.ok (.u32s ((List.range len).map fun i => u32At d bo (raw + 4 * i))), raw + 4 * len)
      else (.error .ioFailure, max raw d.length)) ∧
    (readValue d bo 4 0 raw pos = (.ok (.u32s []), raw)) ∧
    (readValue d bo 8 1 raw pos = (.ok (.i16v (toInt16 raw)), pos)) ∧
    (2 ≤ len → readValue d bo 8 len raw pos =
      if raw + 2 * len ≤ d.length then
        (.ok (.i16s ((List.range len).map fun i => toInt16 (u16At d bo (raw + 2 * i)))),
          raw + 2 * len)
      else (.error .ioFailure, max raw d.length)) ∧
    (readValue d bo 9 1 raw pos = (.ok (.i32v (toInt32 raw)), pos)) ∧
    (2 ≤ len → readValue d bo 9 len raw pos =
      if raw + 4 * len ≤ d.length then
        (.ok (.i32s ((List.range len).map fun i => toInt32 (u32At d bo (raw + 4 * i)))),
          raw + 4 * len)
      else (.error .ioFailure, max raw d.length)) ∧
    (len ≠ 0 → readValue d bo 2 len raw pos =
      if raw + len ≤ d.length then (.ok (.str (trimNul (bytesAt d raw len))), raw + len)
      else (.error .ioFailure, max raw d.length)) ∧
    (readValue d bo 2 0 raw pos = (.ok (.str []), raw)) ∧
    (readValue d bo 5 len raw pos =
      if raw + 8 ≤ d.length then
        (.ok (.urat (u32At d bo raw) (u32At d bo (raw + 4))), raw + 8)
      else (.error .ioFailure, max raw d.length)) ∧
    (readValue d bo 10 len raw pos =
      if raw + 8 ≤ d.length then
        (.ok (.rat (toInt32 (u32At d bo raw)) (toInt32 (u32At d bo (raw + 4)))), raw + 8)
      else (.error .ioFailure, max raw d.length)) := by
  have hu32pair : ∀ hle : raw + 8 ≤ d.length,
      (u32 bo ((bytesAt d raw 8).getD 0 0) ((bytesAt d raw 8).getD 1 0)
        ((bytesAt d raw 8).getD 2 0) ((bytesAt d raw 8).getD 3 0) = u32At d bo raw) ∧
      (u32 bo ((bytesAt d raw 8).getD 4 0) ((bytesAt d raw 8).getD 5 0)
        ((bytesAt d raw 8).getD 6 0) ((bytesAt d raw 8).getD 7 0) = u32At d bo (raw + 4)) := by
    intro _
    constructor
    · simpa using u32_bytesAt d bo raw 8 0 (by omega)
    · simpa using u32_bytesAt d bo raw 8 4 (by omega)
  refine ⟨rfl, ?_, ?_, rfl, ?_, ?_, rfl, ?_, rfl, ?_, ?_, ?_, ?_, ?_⟩
  · intro h2
    have hne1 : len ≠ 1 := by omega
    by_cases hle : raw + 2 * len ≤ d.length
    · simp [readValue, hne1, readUints16, readFull_pos_ok d raw (2 * len) hle,
        decodeU16s_bytesAt, hle]
    · simp [readValue, hne1, readUints16,
        readFull_pos_err d raw (2 * len) (by omega) hle, hle]
  · simp [readValue, readUints16, readFull, decodeU16s]
  · intro h2
    have hne1 : len ≠ 1 := by omega
    by_cases hle : raw + 4 * len ≤ d.length
    · simp [readValue, hne1, readUints32, readFull_pos_ok d raw (4 * len) hle,
        decodeU32s_bytesAt, hle]
    · simp [readValue, hne1, readUints32,
        readFull_pos_err d raw (4 * len) (by omega) hle, hle]
  · simp [readValue, readUints32, readFull, decodeU32s]
  · intro h2
    have hne1 : len ≠ 1 := by omega
    by_cases hle : raw + 2 * len ≤ d.length
    · simp [readValue, hne1, readInts16, readUints16,
        readFull_pos_ok d raw (2 * len) hle, decodeU16s_bytesAt, hle, List.map_map,
        Function.comp]
    · simp [readValue, hne1, readInts16, readUints16,
        readFull_pos_err d raw (2 * len) (by omega) hle, hle]
  · intro h2
    have hne1 : len ≠ 1 := by omega
    by_cases hle : raw + 4 * len ≤ d.length
    · simp [readValue, hne1, readInts32, readUints32,
        readFull_pos_ok d raw (4 * len) hle, decodeU32s_bytesAt, hle, List.map_map,
        Function.comp]
    · simp [readValue, hne1, readInts32, readUints32,
        readFull_pos_err d raw (4 * len) (by omega) hle, hle]
  · intro hne0
    by_cases hle : raw + len ≤ d.length
    · simp [readValue, readString, readFull_pos_ok d raw len hle, hle]
    · simp [readValue, readString, readFull_pos_err d raw len hne0 hle, hle]
  · simp [readValue, readString, readFull, trimNul]
  · by_cases hle : raw + 8 ≤ d.length
    · obtain ⟨e1, e2⟩ := hu32pair hle
      simp only [List.getD_eq_getElem?_getD] at e1 e2
      simp [readValue, readURational, readFull_pos_ok d raw 8 hle, hle, e1, e2]
    · simp [readValue, readURational, readFull_pos_err d raw 8 (by omega) hle, hle]
  · by_cases hle : raw + 8 ≤ d.length
    · obtain ⟨e1, e2⟩ := hu32pair hle
      simp only [List.getD_eq_getElem?_getD] at e1 e2
      simp [readValue, readRational, readFull_pos_ok d raw 8 hle, hle, e1, e2]
    · simp [readValue, readRational, readFull_pos_err d raw 8 (by omega) hle, hle]

/-- Witness for C2: a count-2 unsigned 16-bit entry is resolved externally at
the payload offset, and a string entry is read externally with its trailing
NUL trimmed. -/
theorem readValue_inline_external_witness :
    readValue [1, 0, 2, 0] .little 3 2 0 99 = (.ok (.u16s [1, 2]), 4) ∧
    readValue [65, 66, 0, 9] .little 2 3 0 99 = (.ok (.str [65, 66]), 3) := by
  constructor
  · have h := (readValue_inline_external [1, 0, 2, 0] .little 2 0 99).2.1 (by decide)
    rw [h]; rfl
  · have h :=
      (readValue_inline_external [65, 66, 0, 9] .little 3 0 99).2.2.2.2.2.2.2.2.2.2.1
        (by decide)
    rw [h]; rfl

/-- C8: Parse is idempotent over an unmodified source — its result is
independent of the incoming read-cursor position (every read is preceded by
an absolute seek), so a second call starting from the cursor left by the
first returns the same result map. -/
theorem parse_idempotent (d : List Nat) (bo : ByteOrder) (mapping : Mapping)
    (f : Nat) (ids : List Nat) (pos pos2 : Nat) :
    (parse d bo mapping f ids ((parse d bo mapping f ids pos).2)).1 =
      (parse d bo mapping f ids pos).1 ∧
    (parse d bo mapping f ids pos2).1 = (parse d bo mapping f ids pos).1 :=
  ⟨rfl, rfl⟩

lemma collectLoop_spec (d : List Nat) (bo : ByteOrder) (w : Wanted) (fuel : Nat) :
    ∀ (entryOff pos : Nat) (acc : EntryMap),
      ((collectLoop d bo w fuel entryOff pos acc).2.2 ≤ fuel) ∧
      (∀ j, j + 1 < (collectLoop d bo w fuel entryOff pos acc).2.2 →
        u16At d bo (entryOff + 12 * j) < w.max) ∧
      (∀ m, (collectLoop d bo w fuel entryOff pos acc).1 = .ok m →
        (collectLoop d bo w fuel entryOff pos acc).2.2 < fuel →
        0 < (collectLoop d bo w fuel entryOff pos acc).2.2 ∧
        w.max ≤ u16At d bo
          (entryOff + 12 * ((collectLoop d bo w fuel entryOff pos acc).2.2 - 1))) := by
  induction fuel with
  | zero =>
    intro entryOff pos acc
    refine ⟨Nat.le_refl 0, ?_, ?_⟩
    · intro j hj
      simp [collectLoop] at hj
    · intro m _ hlt
      simp [collectLoop] at hlt
  | succ n ih =>
    intro entryOff pos acc
    by_cases hle : entryOff + 12 ≤ d.length
    · have hrf := readFull_pos_ok d entryOff 12 hle
      have hid : u16 bo ((bytesAt d entryOff 12).getD 0 0)
          ((bytesAt d entryOff 12).getD 1 0) = u16At d bo entryOff := by
        simpa using u16_bytesAt d bo entryOff 12 0 (by omega)
      cases hmem : w.mem (u16At d bo entryOff) with
      | true =>
        rcases hrv : readValue d bo (u16 bo ((bytesAt d entryOff 12).getD 2 0)
            ((bytesAt d entryOff 12).getD 3 0))
            (u32 bo ((bytesAt d entryOff 12).getD 4 0) ((bytesAt d entryOff 12).getD 5 0)
              ((bytesAt d entryOff 12).getD 6 0) ((bytesAt d entryOff 12).getD 7 0))
            (u32 bo ((bytesAt d entryOff 12).getD 8 0) ((bytesAt d entryOff 12).getD 9 0)
              ((bytesAt d entryOff 12).getD 10 0) ((bytesAt d entryOff 12).getD 11 0))
            (entryOff + 12) with ⟨res, p⟩
        cases res with
        | error e =>
          have hstep : collectLoop d bo w (n + 1) entryOff pos acc =
              (.error e, p, 1) := by
            simp only [collectLoop, hrf, hid, hmem, if_true, hrv]
          have hcnt : (collectLoop d bo w (n + 1) entryOff pos acc).2.2 = 1 := by
            rw [hstep]
          have hres : (collectLoop d bo w (n + 1) entryOff pos acc).1 = .error e := by
            rw [hstep]
          refine ⟨by omega, ?_, ?_⟩
          · intro j hj
            rw [hcnt] at hj
            omega
          · intro m hm
            rw [hres] at hm
            simp at hm
        | ok v =>
          by_cases hbr : w.max ≤ u16At d bo entryOff
          · have hcnt : (collectLoop d bo w (n + 1) entryOff pos acc).2.2 = 1 := by
              simp only [collectLoop, hrf, hid, hmem, if_true, hrv, if_pos hbr]
            refine ⟨by omega, ?_, ?_⟩
            · intro j hj
              rw [hcnt] at hj
              omega
            · intro m _ _
              rw [hcnt]
              refine ⟨by omega, ?_⟩
              simpa using hbr
          · have hcnt : (collectLoop d bo w (n + 1) entryOff pos acc).2.2 =
                (collectLoop d bo w n (entryOff + 12) p
                  (insertEntry acc (u16At d bo entryOff)
                    ⟨u16At d bo entryOff,
                      u16 bo ((bytesAt d entryOff 12).getD 2 0)
                        ((bytesAt d entryOff 12).getD 3 0),
                      u32 bo ((bytesAt d entryOff 12).getD 4 0)
                        ((bytesAt d entryOff 12).getD 5 0)
                        ((bytesAt d entryOff 12).getD 6 0)
                        ((bytesAt d entryOff 12).getD 7 0),
                      u32 bo ((bytesAt d entryOff 12).getD 8 0)
                        ((bytesAt d entryOff 12).getD 9 0)
                        ((bytesAt d entryOff 12).getD 10 0)
                        ((bytesAt d entryOff 12).getD 11 0), v⟩)).2.2 + 1 := by
              simp only [collectLoop, hrf, hid, hmem, if_true, hrv, if_neg hbr]
            have hres : (collectLoop d bo w (n + 1) entryOff pos acc).1 =
                (collectLoop d bo w n (entryOff + 12) p
                  (insertEntry acc (u16At d bo entryOff)
                    ⟨u16At d bo entryOff,
                      u16 bo ((bytesAt d entryOff 12).getD 2 0)
                        ((bytesAt d entryOff 12).getD 3 0),
                      u32 bo ((bytesAt d entryOff 12).getD 4 0)
                        ((bytesAt d entryOff 12).getD 5 0)
                        ((bytesAt d entryOff 12).getD 6 0)
                        ((bytesAt d entryOff 12).getD 7 0),
                      u32 bo ((bytesAt d entryOff 12).getD 8 0)
                        ((bytesAt d entryOff 12).getD 9 0)
                        ((bytesAt d entryOff 12).getD 10 0)
                        ((bytesAt d entryOff 12).getD 11 0), v⟩)).1 := by
              simp only [collectLoop, hrf, hid, hmem, if_true, hrv, if_neg hbr]
            obtain ⟨iha, ihb, ihc⟩ := ih (entryOff + 12) p
              (insertEntry acc (u16At d bo entryOff)
                ⟨u16At d bo entryOff,
                  u16 bo ((bytesAt d entryOff 12).getD 2 0)
                    ((bytesAt d entryOff 12).getD 3 0),
                  u32 bo ((bytesAt d entryOff 12).getD 4 0)
                    ((bytesAt d entryOff 12).getD 5 0)
                    ((bytesAt d entryOff 12).getD 6 0)
                    ((bytesAt d entryOff 12).getD 7 0),
                  u32 bo ((bytesAt d entryOff 12).getD 8 0)
                    ((bytesAt d entryOff 12).getD 9 0)
                    ((bytesAt d entryOff 12).getD 10 0)
                    ((bytesAt d entryOff 12).getD 11 0), v⟩)
            refine ⟨by omega, ?_, ?_⟩
            · intro j hj
              rw [hcnt] at hj
              cases j with
              | zero =>
                have hlt : u16At d bo entryOff < w.max := Nat.lt_of_not_le hbr
                simpa using hlt
              | succ k =>
                have hk := ihb k (by omega)
                have heq : entryOff + 12 * (k + 1) = entryOff + 12 + 12 * k := by ring
                rw [heq]
                exact hk
            · intro m hm hlt2
              rw [hres] at hm
              rw [hcnt] at hlt2 ⊢
              obtain ⟨hpos, hmax⟩ := ihc m hm (by omega)
              refine ⟨by omega, ?_⟩
              have heq : entryOff + 12 * ((collectLoop d bo w n (entryOff + 12) p
                    (insertEntry acc (u16At d bo entryOff)
                      ⟨u16At d bo entryOff,
                        u16 bo ((bytesAt d entryOff 12).getD 2 0)
                          ((bytesAt d entryOff 12).getD 3 0),
                        u32 bo ((bytesAt d entryOff 12).getD 4 0)
                          ((bytesAt d entryOff 12).getD 5 0)
                          ((bytesAt d entryOff 12).getD 6 0)
                          ((bytesAt d entryOff 12).getD 7 0),
                        u32 bo ((bytesAt d entryOff 12).getD 8 0)
                          ((bytesAt d entryOff 12).getD 9 0)
                          ((bytesAt d entryOff 12).getD 10 0)
                          ((bytesAt d entryOff 12).getD 11 0), v⟩)).2.2 + 1 - 1)
                  = entryOff + 12 + 12 * ((collectLoop d bo w n (entryOff + 12) p
                    (insertEntry acc (u16At d bo entryOff)
                      ⟨u16At d bo entryOff,
                        u16 bo ((bytesAt d entryOff 12).getD 2 0)
                          ((bytesAt d entryOff 12).getD 3 0),
                        u32 bo ((bytesAt d entryOff 12).getD 4 0)
                          ((bytesAt d entryOff 12).getD 5 0)
                          ((bytesAt d entryOff 12).getD 6 0)
                          ((bytesAt d entryOff 12).getD 7 0),
                        u32 bo ((bytesAt d entryOff 12).getD 8 0)
                          ((bytesAt d entryOff 12).getD 9 0)
                          ((bytesAt d entryOff 12).getD 10 0)
                          ((bytesAt d entryOff 12).getD 11 0), v⟩)).2.2 - 1) := by
                omega
              rw [heq]
              exact hmax
      | false =>
        by_cases hbr : w.max ≤ u16At d bo entryOff
        · have hcnt : (collectLoop d bo w (n + 1) entryOff pos acc).2.2 = 1 := by
            simp only [collectLoop, hrf, hid, hmem, Bool.false_eq_true, if_false,
              if_pos hbr]
          refine ⟨by omega, ?_, ?_⟩
          · intro j hj
            rw [hcnt] at hj
            omega
          · intro m _ _
            rw [hcnt]
            refine ⟨by omega, ?_⟩
            simpa using hbr
        · have hcnt : (collectLoop d bo w (n + 1) entryOff pos acc).2.2 =
              (collectLoop d bo w n (entryOff + 12) (entryOff + 12) acc).2.2 + 1 := by
            simp only [collectLoop, hrf, hid, hmem, Bool.false_eq_true, if_false,
              if_neg hbr]
          have hres : (collectLoop d bo w (n + 1) entryOff pos acc).1 =
              (collectLoop d bo w n (entryOff + 12) (entryOff + 12) acc).1 := by
            simp only [collectLoop, hrf, hid, hmem, Bool.false_eq_true, if_false,
              if_neg hbr]
          obtain ⟨iha, ihb, ihc⟩ := ih (entryOff + 12) (entryOff + 12) acc
          refine ⟨by omega, ?_, ?_⟩
          · intro j hj
            rw [hcnt] at hj
            cases j with
            | zero =>
              have hlt : u16At d bo entryOff < w.max := Nat.lt_of_not_le hbr
              simpa using hlt
            | succ k =>
              have hk := ihb k (by omega)
              have heq : entryOff + 12 * (k + 1) = entryOff + 12 + 12 * k := by ring
              rw [heq]
              exact hk
          · intro m hm hlt2
            rw [hres] at hm
            rw [hcnt] at hlt2 ⊢
            obtain ⟨hpos, hmax⟩ := ihc m hm (by omega)
            refine ⟨by omega, ?_⟩
            have heq : entryOff + 12 *
                ((collectLoop d bo w n (entryOff + 12) (entryOff + 12) acc).2.2 + 1 - 1)
                = entryOff + 12 + 12 *
                  ((collectLoop d bo w n (entryOff + 12) (entryOff + 12) acc).2.2 - 1) := by
              omega
            rw [heq]
            exact hmax
    · have hrf := readFull_pos_err d entryOff 12 (by omega) hle
      have hstep : collectLoop d bo w (n + 1) entryOff pos acc =
          (.error .ioFailure, max entryOff d.length, 1) := by
        simp only [collectLoop, hrf]
      have hcnt : (collectLoop d bo w (n + 1) entryOff pos acc).2.2 = 1 := by
        rw [hstep]
      have hres : (collectLoop d bo w (n + 1) entryOff pos acc).1 =
          .error .ioFailure := by
        rw [hstep]
      refine ⟨by omega, ?_, ?_⟩
      · intro j hj
        rw [hcnt] at hj
        omega
      · intro m hm
        rw [hres] at hm
        simp at hm

/-- C1: the collector examines entries in file order and stops at the first
entry whose identifier reaches the wanted-set's maximum, regardless of
membership: the number of issued 12-byte entry reads never exceeds the
directory's entry count, every entry read before the last one has an
identifier strictly below the maximum, and when the scan ends early (with
success) the last entry read has an identifier at or above the maximum.  In
particular, on the reference directory with identifiers [5, 10, 20, 30] and
wanted-set {10} the collector issues exactly 2 entry reads — at most 3, and
never past the entry with identifier 20. -/
theorem collect_early_termination (d : List Nat) (bo : ByteOrder) (pos off : Nat)
    (w : Wanted) :
    ((collect d bo pos off w).2.2 ≤ u16At d bo off) ∧
    (∀ j, j + 1 < (collect d bo pos off w).2.2 →
      u16At d bo (off + 2 + 12 * j) < w.max) ∧
    (∀ m, (collect d bo pos off w).1 = .ok m →
      (collect d bo pos off w).2.2 < u16At d bo off →
      0 < (collect d bo pos off w).2.2 ∧
      w.max ≤ u16At d bo (off + 2 + 12 * ((collect d bo pos off w).2.2 - 1))) ∧
    ((collect demoDir .little 0 0 (newWanted [10])).2.2 = 2 ∧ 2 ≤ 3) := by
  have main : ((collect d bo pos off w).2.2 ≤ u16At d bo off) ∧
      (∀ j, j + 1 < (collect d bo pos off w).2.2 →
        u16At d bo (off + 2 + 12 * j) < w.max) ∧
      (∀ m, (collect d bo pos off w).1 = .ok m →
        (collect d bo pos off w).2.2 < u16At d bo off →
        0 < (collect d bo pos off w).2.2 ∧
        w.max ≤ u16At d bo (off + 2 + 12 * ((collect d bo pos off w).2.2 - 1))) := by
    by_cases h2 : off + 2 ≤ d.length
    · have hrf := readFull_pos_ok d off 2 h2
      have hne : u16 bo ((bytesAt d off 2).getD 0 0) ((bytesAt d off 2).getD 1 0) =
          u16At d bo off := by
        simpa using u16_bytesAt d bo off 2 0 (by omega)
      have hcol : collect d bo pos off w =
          collectLoop d bo w (u16At d bo off) (off + 2) (off + 2) [] := by
        simp only [collect, hrf, hne]
      rw [hcol]
      exact collectLoop_spec d bo w (u16At d bo off) (off + 2) (off + 2) []
    · have hrf := readFull_pos_err d off 2 (by omega) h2
      have hcol : collect d bo pos off w = (.error .ioFailure, max off d.length, 0) := by
        simp only [collect, hrf]
      rw [hcol]
      refine ⟨Nat.zero_le _, ?_, ?_⟩
      · intro j hj
        simp at hj
      · intro m hm
        simp at hm
  exact ⟨main.1, main.2.1, main.2.2, rfl, by omega⟩

/-- Witness for C1: on the reference directory the scan succeeds, stops
early, and its last (second) entry read is the entry whose identifier equals
the wanted-set's maximum. -/
theorem collect_early_termination_witness :
    0 < (collect demoDir .little 0 0 (newWanted [10])).2.2 ∧
    (newWanted [10]).max ≤ u16At demoDir .little
      (0 + 2 + 12 * ((collect demoDir .little 0 0 (newWanted [10])).2.2 - 1)) :=
  (collect_early_termination demoDir .little 0 0 (newWanted [10])).2.2.1
    [(10, ⟨10, 3, 1, 7, .u16v 7⟩)] rfl (by decide)

lemma wanted_put_not_mem (w : Wanted) (i k : Nat) (hk : k ∉ w.ids) (hne : k ≠ i) :
    k ∉ (w.put i).ids := by
  by_cases him : i ∈ w.ids
  · simpa [Wanted.put, him] using hk
  · simp [Wanted.put, him, List.mem_append, hk, hne]

lemma wanted_put_ne_nil (w : Wanted) (i : Nat) : (w.put i).ids ≠ [] := by
  by_cases him : i ∈ w.ids
  · simp only [Wanted.put, him, if_pos]
    intro hnil
    rw [hnil] at him
    simp at him
  · simp [Wanted.put, him]

lemma partition_filter (mapping : Mapping) (id : Nat)
    (h : lookupGroup mapping id = none) (ids : List Nat) :
    ∀ acc, (ids.filter fun i => i != id).foldl (partitionStep mapping) acc =
      ids.foldl (partitionStep mapping) acc := by
  induction ids with
  | nil => intro acc; rfl
  | cons i rest ih =>
    intro acc
    by_cases hi : i = id
    · subst hi
      have hstep : partitionStep mapping acc i = acc := by
        simp [partitionStep, h]
      simp only [List.filter_cons, bne_self_eq_false, if_false, List.foldl_cons, hstep]
      exact ih acc
    · have hbne : (i != id) = true := by simp [hi]
      simp only [List.filter_cons, hbne, if_true, List.foldl_cons]
      exact ih (partitionStep mapping acc i)

lemma partition_sub_not_mem (mapping : Mapping) (id : Nat)
    (h : lookupGroup mapping id = none) (ids : List Nat) :
    ∀ acc : Wanted × Wanted × Wanted, id ∉ acc.2.1.ids → id ∉ acc.2.2.ids →
      id ∉ (ids.foldl (partitionStep mapping) acc).2.1.ids ∧
      id ∉ (ids.foldl (partitionStep mapping) acc).2.2.ids := by
  induction ids with
  | nil => intro acc h1 h2; exact ⟨h1, h2⟩
  | cons i rest ih =>
    intro acc h1 h2
    rw [List.foldl_cons]
    by_cases hne : id = i
    · subst hne
      have hstep : partitionStep mapping acc id = acc := by
        simp [partitionStep, h]
      rw [hstep]
      exact ih acc h1 h2
    · apply ih
      · rcases hlk : lookupGroup mapping i with _ | g
        · simpa [partitionStep, hlk] using h1
        · cases g <;> simp only [partitionStep, hlk]
          · exact h1
          · exact h1
          · exact wanted_put_not_mem _ _ _ h1 hne
          · exact h1
      · rcases hlk : lookupGroup mapping i with _ | g
        · simpa [partitionStep, hlk] using h2
        · cases g <;> simp only [partitionStep, hlk]
          · exact h2
          · exact h2
          · exact h2
          · exact wanted_put_not_mem _ _ _ h2 hne

lemma partition_root_not_mem (mapping : Mapping) (id : Nat)
    (h : lookupGroup mapping id = none) (hne1 : id ≠ exifID) (hne2 : id ≠ gpsInfoID)
    (ids : List Nat) :
    ∀ acc : Wanted × Wanted × Wanted, id ∉ acc.1.ids →
      id ∉ (ids.foldl (partitionStep mapping) acc).1.ids := by
  induction ids with
  | nil => intro acc h1; exact h1
  | cons i rest ih =>
    intro acc h1
    rw [List.foldl_cons]
    by_cases hne : id = i
    · subst hne
      have hstep : partitionStep mapping acc id = acc := by
        simp [partitionStep, h]
      rw [hstep]
      exact ih acc h1
    · apply ih
      rcases hlk : lookupGroup mapping i with _ | g
      · simpa [partitionStep, hlk] using h1
      · cases g <;> simp only [partitionStep, hlk]
        · exact wanted_put_not_mem _ _ _ h1 hne
        · exact h1
        · exact wanted_put_not_mem _ _ _ h1 hne1
        · exact wanted_put_not_mem _ _ _ h1 hne2

lemma collectLoop_lookup_not_wanted (d : List Nat) (bo : ByteOrder) (w : Wanted)
    (k : Nat) (hk : w.mem k = false) (fuel : Nat) :
    ∀ (entryOff pos : Nat) (acc : EntryMap) (m : EntryMap),
      (collectLoop d bo w fuel entryOff pos acc).1 = .ok m →
      lookupEntry m k = lookupEntry acc k := by
  induction fuel with
  | zero =>
    intro entryOff pos acc m hm
    simp only [collectLoop] at hm
    cases hm
    rfl
  | succ n ih =>
    intro entryOff pos acc m hm
    by_cases hle : entryOff + 12 ≤ d.length
    · have hrf := readFull_pos_ok d entryOff 12 hle
      have hid : u16 bo ((bytesAt d entryOff 12).getD 0 0)
          ((bytesAt d entryOff 12).getD 1 0) = u16At d bo entryOff := by
        simpa using u16_bytesAt d bo entryOff 12 0 (by omega)
      cases hmem : w.mem (u16At d bo entryOff) with
      | true =>
        have hkne : k ≠ u16At d bo entryOff := by
          intro hkk
          rw [hkk, hmem] at hk
          cases hk
        rcases hrv : readValue d bo (u16 bo ((bytesAt d entryOff 12).getD 2 0)
            ((bytesAt d entryOff 12).getD 3 0))
            (u32 bo ((bytesAt d entryOff 12).getD 4 0) ((bytesAt d entryOff 12).getD 5 0)
              ((bytesAt d entryOff 12).getD 6 0) ((bytesAt d entryOff 12).getD 7 0))
            (u32 bo ((bytesAt d entryOff 12).getD 8 0) ((bytesAt d entryOff 12).getD 9 0)
              ((bytesAt d entryOff 12).getD 10 0) ((bytesAt d entryOff 12).getD 11 0))
            (entryOff + 12) with ⟨res, p⟩
        cases res with
        | error e =>
          have hres : (collectLoop d bo w (n + 1) entryOff pos acc).1 = .error e := by
            simp only [collectLoop, hrf, hid, hmem, if_true, hrv]
          rw [hres] at hm
          cases hm
        | ok v =>
          by_cases hbr : w.max ≤ u16At d bo entryOff
          · have hres : (collectLoop d bo w (n + 1) entryOff pos acc).1 =
                .ok (insertEntry acc (u16At d bo entryOff)
                  ⟨u16At d bo entryOff,
                    u16 bo ((bytesAt d entryOff 12).getD 2 0)
                      ((bytesAt d entryOff 12).getD 3 0),
                    u32 bo ((bytesAt d entryOff 12).getD 4 0)
                      ((bytesAt d entryOff 12).getD 5 0)
                      ((bytesAt d entryOff 12).getD 6 0)
                      ((bytesAt d entryOff 12).getD 7 0),
                    u32 bo ((bytesAt d entryOff 12).getD 8 0)
                      ((bytesAt d entryOff 12).getD 9 0)
                      ((bytesAt d entryOff 12).getD 10 0)
                      ((bytesAt d entryOff 12).getD 11 0), v⟩) := by
              simp only [collectLoop, hrf, hid, hmem, if_true, hrv, if_pos hbr]
            rw [hres] at hm
            cases hm
            exact lookupEntry_insert_ne _ _ _ _ hkne
          · have hres : (collectLoop d bo w (n + 1) entryOff pos acc).1 =
                (collectLoop d bo w n (entryOff + 12) p
                  (insertEntry acc (u16At d bo entryOff)
                    ⟨u16At d bo entryOff,
                      u16 bo ((bytesAt d entryOff 12).getD 2 0)
                        ((bytesAt d entryOff 12).getD 3 0),
                      u32 bo ((bytesAt d entryOff 12).getD 4 0)
                        ((bytesAt d entryOff 12).getD 5 0)
                        ((bytesAt d entryOff 12).getD 6 0)
                        ((bytesAt d entryOff 12).getD 7 0),
                      u32 bo ((bytesAt d entryOff 12).getD 8 0)
                        ((bytesAt d entryOff 12).getD 9 0)
                        ((bytesAt d entryOff 12).getD 10 0)
                        ((bytesAt d entryOff 12).getD 11 0), v⟩)).1 := by
              simp only [collectLoop, hrf, hid, hmem, if_true, hrv, if_neg hbr]
            rw [hres] at hm
            have := ih _ _ _ _ hm
            rw [this, lookupEntry_insert_ne _ _ _ _ hkne]
      | false =>
        by_cases hbr : w.max ≤ u16At d bo entryOff
        · have hres : (collectLoop d bo w (n + 1) entryOff pos acc).1 = .ok acc := by
            simp only [collectLoop, hrf, hid, hmem, Bool.false_eq_true, if_false,
              if_pos hbr]
          rw [hres] at hm
          cases hm
          rfl
        · have hres : (collectLoop d bo w (n + 1) entryOff pos acc).1 =
              (collectLoop d bo w n (entryOff + 12) (entryOff + 12) acc).1 := by
            simp only [collectLoop, hrf, hid, hmem, Bool.false_eq_true, if_false,
              if_neg hbr]
          rw [hres] at hm
          exact ih _ _ _ _ hm
    · have hrf := readFull_pos_err d entryOff 12 (by omega) hle
      have hres : (collectLoop d bo w (n + 1) entryOff pos acc).1 =
          .error .ioFailure := by
        simp only [collectLoop, hrf]
      rw [hres] at hm
      cases hm

lemma collect_lookup_not_wanted (d : List Nat) (bo : ByteOrder) (pos off : Nat)
    (w : Wanted) (k : Nat) (hk : w.mem k = false) (m : EntryMap)
    (hm : (collect d bo pos off w).1 = .ok m) :
    lookupEntry m k = none := by
  by_cases h2 : off + 2 ≤ d.length
  · have hrf := readFull_pos_ok d off 2 h2
    have hcol : (collect d bo pos off w).1 =
        (collectLoop d bo w (u16 bo ((bytesAt d off 2).getD 0 0)
          ((bytesAt d off 2).getD 1 0)) (off + 2) (off + 2) []).1 := by
      simp only [collect, hrf]
    rw [hcol] at hm
    have := collectLoop_lookup_not_wanted d bo w k hk _ _ _ _ _ hm
    rw [this]
    rfl
  · have hrf := readFull_pos_err d off 2 (by omega) h2
    have hcol : (collect d bo pos off w).1 = .error .ioFailure := by
      simp only [collect, hrf]
    rw [hcol] at hm
    cases hm

lemma mem_not_of_not_mem_ids (w : Wanted) (k : Nat) (hk : k ∉ w.ids) :
    w.mem k = false := by
  simp [Wanted.mem, hk]

lemma lookupEntry_filter_pointers (m : EntryMap) (k : Nat)
    (hk : k = exifID ∨ k = gpsInfoID) :
    lookupEntry (m.filter fun pr => pr.1 != exifID && pr.1 != gpsInfoID) k = none := by
  induction m with
  | nil => rfl
  | cons p rest ih =>
    rw [List.filter_cons]
    by_cases hp : (p.1 != exifID && p.1 != gpsInfoID) = true
    · rw [if_pos hp]
      rw [lookupEntry_cons]
      have hpk : p.1 ≠ k := by
        simp only [bne_iff_ne, ne_eq, Bool.and_eq_true] at hp
        rcases hk with rfl | rfl
        · exact hp.1
        · exact hp.2
      rw [if_neg hpk]
      exact ih
    · rw [if_neg hp]
      exact ih

lemma lookupEntry_filter_of_none (m : EntryMap) (q : Nat × EntryRec → Bool) (k : Nat)
    (h : lookupEntry m k = none) :
    lookupEntry (m.filter q) k = none := by
  induction m with
  | nil => rfl
  | cons p rest ih =>
    rw [lookupEntry_cons] at h
    by_cases hp : p.1 = k
    · simp [hp] at h
    · rw [if_neg hp] at h
      rw [List.filter_cons]
      by_cases hq : q p = true
      · rw [if_pos hq, lookupEntry_cons, if_neg hp]
        exact ih h
      · rw [if_neg hq]
        exact ih h

lemma lookupEntry_merge_none (b a : EntryMap) (k : Nat)
    (ha : lookupEntry a k = none) (hb : lookupEntry b k = none) :
    lookupEntry (mergeEntries a b) k = none := by
  induction b generalizing a with
  | nil => exact ha
  | cons p rest ih =>
    rw [lookupEntry_cons] at hb
    by_cases hp : p.1 = k
    · simp [hp] at hb
    · rw [if_neg hp] at hb
      have hins : lookupEntry (insertEntry a p.1 p.2) k = none := by
        rw [lookupEntry_insert_ne _ _ _ _ (Ne.symm hp)]
        exact ha
      simpa [mergeEntries] using ih (insertEntry a p.1 p.2) hins hb

lemma gpsPhase_lookup_none (d : List Nat) (bo : ByteOrder) (wG : Wanted)
    (m0 entries : EntryMap) (pos k : Nat)
    (hkG : wG.mem k = false) (hent : lookupEntry entries k = none) :
    ∀ m p, gpsPhase d bo wG m0 entries pos = (.ok m, p) → lookupEntry m k = none := by
  intro m p hm
  by_cases hwG : wG.ids = []
  · have heq : gpsPhase d bo wG m0 entries pos = (.ok entries, pos) := by
      simp only [gpsPhase, if_pos hwG]
    rw [heq] at hm
    cases hm
    exact hent
  · rcases hg : lookupEntry m0 gpsInfoID with _ | g
    · have heq : gpsPhase d bo wG m0 entries pos =
          (.error .subDirectoryNotFound, pos) := by
        simp only [gpsPhase, if_neg hwG, hg]
      rw [heq] at hm
      cases hm
    · rcases hcg : collect d bo pos g.rawValue wG with ⟨resG, pG, cG⟩
      cases resG with
      | error e =>
        have heq : gpsPhase d bo wG m0 entries pos = (.error e, pG) := by
          simp only [gpsPhase, if_neg hwG, hg, hcg]
        rw [heq] at hm
        cases hm
      | ok mG =>
        have heq : gpsPhase d bo wG m0 entries pos =
            (.ok (mergeEntries entries mG), pG) := by
          simp only [gpsPhase, if_neg hwG, hg, hcg]
        rw [heq] at hm
        cases hm
        have hmG : lookupEntry mG k = none := by
          apply collect_lookup_not_wanted d bo pos g.rawValue wG k hkG
          rw [hcg]
        exact lookupEntry_merge_none mG entries k hent hmG

/-- C7: a requested identifier with no entry in the tag-to-group mapping is
silently dropped — removing it from the request leaves the result of Parse
unchanged, and when Parse succeeds the returned map lacks that key; no error
is produced on account of it. -/
theorem parse_drops_unmapped (d : List Nat) (bo : ByteOrder) (mapping : Mapping)
    (f : Nat) (ids : List Nat) (pos id : Nat)
    (h : lookupGroup mapping id = none) :
    (parse d bo mapping f (ids.filter fun i => i != id) pos =
      parse d bo mapping f ids pos) ∧
    (∀ m p, parse d bo mapping f ids pos = (.ok m, p) → lookupEntry m id = none) := by
  constructor
  · have hpw : partitionWanted mapping (ids.filter fun i => i != id) =
        partitionWanted mapping ids := partition_filter mapping id h ids _
    simp only [parse, hpw]
  · intro m p hm
    have hsub : id ∉ (partitionWanted mapping ids).2.1.ids ∧
        id ∉ (partitionWanted mapping ids).2.2.ids :=
      partition_sub_not_mem mapping id h ids (⟨[], 0⟩, ⟨[], 0⟩, ⟨[], 0⟩)
        (by simp) (by simp)
    rcases hc0 : collect d bo pos f (partitionWanted mapping ids).1 with ⟨res0, p0, c0⟩
    cases res0 with
    | error e =>
      have heq : parse d bo mapping f ids pos = (.error e, p0) := by
        simp only [parse, hc0]
      rw [heq] at hm
      cases hm
    | ok m0 =>
      have hent : lookupEntry
          (m0.filter fun pr => pr.1 != exifID && pr.1 != gpsInfoID) id = none := by
        by_cases hpid : id = exifID ∨ id = gpsInfoID
        · exact lookupEntry_filter_pointers m0 id hpid
        · push_neg at hpid
          have hw0 : id ∉ (partitionWanted mapping ids).1.ids :=
            partition_root_not_mem mapping id h hpid.1 hpid.2 ids
              (⟨[], 0⟩, ⟨[], 0⟩, ⟨[], 0⟩) (by simp)
          have hm0 : lookupEntry m0 id = none := by
            apply collect_lookup_not_wanted d bo pos f _ id
              (mem_not_of_not_mem_ids _ _ hw0)
            rw [hc0]
          exact lookupEntry_filter_of_none m0 _ id hm0
      by_cases hwE : (partitionWanted mapping ids).2.1.ids = []
      · have heq : parse d bo mapping f ids pos =
            gpsPhase d bo (partitionWanted mapping ids).2.2 m0
              (m0.filter fun pr => pr.1 != exifID && pr.1 != gpsInfoID) p0 := by
          simp only [parse, hc0, if_pos hwE]
        rw [heq] at hm
        exact gpsPhase_lookup_none _ _ _ _ _ _ _
          (mem_not_of_not_mem_ids _ _ hsub.2) hent m p hm
      · rcases he : lookupEntry m0 exifID with _ | e
        · have heq : parse d bo mapping f ids pos =
              (.error .subDirectoryNotFound, p0) := by
            simp only [parse, hc0, if_neg hwE, he]
          rw [heq] at hm
          cases hm
        · rcases hcE : collect d bo p0 e.rawValue (partitionWanted mapping ids).2.1
            with ⟨resE, pE, cE⟩
          cases resE with
          | error err =>
            have heq : parse d bo mapping f ids pos = (.error err, pE) := by
              simp only [parse, hc0, if_neg hwE, he, hcE]
            rw [heq] at hm
            cases hm
          | ok mE =>
            have heq : parse d bo mapping f ids pos =
                gpsPhase d bo (partitionWanted mapping ids).2.2 m0
                  (mergeEntries
                    (m0.filter fun pr => pr.1 != exifID && pr.1 != gpsInfoID) mE) pE := by
              simp only [parse, hc0, if_neg hwE, he, hcE]
            rw [heq] at hm
            have hmE : lookupEntry mE id = none := by
              apply collect_lookup_not_wanted d bo p0 e.rawValue _ id
                (mem_not_of_not_mem_ids _ _ hsub.1)
              rw [hcE]
            have hent2 := lookupEntry_merge_none mE _ id hent hmE
            exact gpsPhase_lookup_none _ _ _ _ _ _ _
              (mem_not_of_not_mem_ids _ _ hsub.2) hent2 m p hm

/-- Witness for C7: requesting the unmapped identifier 99 alongside the
mapped identifier 5 yields the same result as not requesting it. -/
theorem parse_drops_unmapped_witness :
    parse demoDir .little [(5, Group.ifd0)] 0 ([5, 99].filter fun i => i != 99) 0 =
      parse demoDir .little [(5, Group.ifd0)] 0 [5, 99] 0 :=
  (parse_drops_unmapped demoDir .little [(5, Group.ifd0)] 0 [5, 99] 0 99 rfl).1

lemma partition_exif_nil (mapping : Mapping) (ids : List Nat) :
    ∀ acc : Wanted × Wanted × Wanted,
      (ids.foldl (partitionStep mapping) acc).2.1.ids = [] →
      acc.2.1.ids = [] ∧ ∀ i ∈ ids, lookupGroup mapping i ≠ some .exif := by
  induction ids with
  | nil =>
    intro acc h
    exact ⟨h, by simp⟩
  | cons i rest ih =>
    intro acc h
    rw [List.foldl_cons] at h
    obtain ⟨hstep, hrest⟩ := ih (partitionStep mapping acc i) h
    have hi : lookupGroup mapping i ≠ some .exif := by
      intro hx
      rw [show partitionStep mapping acc i =
          (acc.1.put exifID, acc.2.1.put i, acc.2.2) by simp [partitionStep, hx]] at hstep
      exact wanted_put_ne_nil acc.2.1 i hstep
    have hacc : acc.2.1.ids = [] := by
      rcases hlk : lookupGroup mapping i with _ | g
      · simpa [partitionStep, hlk] using hstep
      · cases g
        · simpa [partitionStep, hlk] using hstep
        · simpa [partitionStep, hlk] using hstep
        · exact absurd hlk hi
        · simpa [partitionStep, hlk] using hstep
    refine ⟨hacc, ?_⟩
    intro j hj
    rcases List.mem_cons.mp hj with rfl | hj2
    · exact hi
    · exact hrest j hj2

lemma partition_gps_nil (mapping : Mapping) (ids : List Nat) :
    ∀ acc : Wanted × Wanted × Wanted,
      (ids.foldl (partitionStep mapping) acc).2.2.ids = [] →
      acc.2.2.ids = [] ∧ ∀ i ∈ ids, lookupGroup mapping i ≠ some .gpsInfo := by
  induction ids with
  | nil =>
    intro acc h
    exact ⟨h, by simp⟩
  | cons i rest ih =>
    intro acc h
    rw [List.foldl_cons] at h
    obtain ⟨hstep, hrest⟩ := ih (partitionStep mapping acc i) h
    have hi : lookupGroup mapping i ≠ some .gpsInfo := by
      intro hx
      rw [show partitionStep mapping acc i =
          (acc.1.put gpsInfoID, acc.2.1, acc.2.2.put i) by simp [partitionStep, hx]] at hstep
      exact wanted_put_ne_nil acc.2.2 i hstep
    have hacc : acc.2.2.ids = [] := by
      rcases hlk : lookupGroup mapping i with _ | g
      · simpa [partitionStep, hlk] using hstep
      · cases g
        · simpa [partitionStep, hlk] using hstep
        · simpa [partitionStep, hlk] using hstep
        · simpa [partitionStep, hlk] using hstep
        · exact absurd hlk hi
    refine ⟨hacc, ?_⟩
    intro j hj
    rcases List.mem_cons.mp hj with rfl | hj2
    · exact hi
    · exact hrest j hj2

lemma partition_exif_stable (mapping : Mapping) (ids : List Nat) :
    ∀ acc : Wanted × Wanted × Wanted,
      (∀ i ∈ ids, lookupGroup mapping i ≠ some .exif) →
      (ids.foldl (partitionStep mapping) acc).2.1 = acc.2.1 := by
  induction ids with
  | nil => intro acc _; rfl
  | cons i rest ih =>
    intro acc h
    rw [List.foldl_cons]
    rw [ih (partitionStep mapping acc i) fun j hj => h j (List.mem_cons_of_mem i hj)]
    rcases hlk : lookupGroup mapping i with _ | g
    · simp [partitionStep, hlk]
    · cases g
      · simp [partitionStep, hlk]
      · simp [partitionStep, hlk]
      · exact absurd hlk (h i (List.mem_cons_self i rest))
      · simp [partitionStep, hlk]

lemma partition_gps_stable (mapping : Mapping) (ids : List Nat) :
    ∀ acc : Wanted × Wanted × Wanted,
      (∀ i ∈ ids, lookupGroup mapping i ≠ some .gpsInfo) →
      (ids.foldl (partitionStep mapping) acc).2.2 = acc.2.2 := by
  induction ids with
  | nil => intro acc _; rfl
  | cons i rest ih =>
    intro acc h
    rw [List.foldl_cons]
    rw [ih (partitionStep mapping acc i) fun j hj => h j (List.mem_cons_of_mem i hj)]
    rcases hlk : lookupGroup mapping i with _ | g
    · simp [partitionStep, hlk]
    · cases g
      · simp [partitionStep, hlk]
      · simp [partitionStep, hlk]
      · simp [partitionStep, hlk]
      · exact absurd hlk (h i (List.mem_cons_self i rest))

/-- Little-endian source for the C4 counterexample: its root directory holds
only the Exif pointer entry, whose decoded offset (9999) lies beyond the end
of the source, and no GPSInfo pointer entry. -/
def bothDemo : List Nat := [1, 0, 105, 135, 4, 0, 1, 0, 0, 0, 15, 39, 0, 0]

/-- Mapping routing identifier 0x829a to the Exif group and identifier 2 to
the GPSInfo group. -/
def bothMapping : Mapping := [(0x829a, Group.exif), (2, Group.gpsInfo)]

/-- Little-endian source whose root directory holds both sub-IFD pointer
entries (Exif at offset 26, GPSInfo at offset 40), with one unsigned 16-bit
entry in each sub-directory. -/
def bothOkDemo : List Nat :=
  [2, 0,
   105, 135, 4, 0, 1, 0, 0, 0, 26, 0, 0, 0,
   37, 136, 4, 0, 1, 0, 0, 0, 40, 0, 0, 0,
   1, 0, 154, 130, 3, 0, 1, 0, 0, 0, 7, 0, 0, 0,
   1, 0, 2, 0, 3, 0, 1, 0, 0, 0, 9, 0, 0, 0]

/-- Counterexample for C4: a Parse call requesting an Exif-mapped and a
GPSInfo-mapped identifier, whose successful root scan produced the Exif
pointer but not the GPSInfo pointer; because the Exif sub-directory collect
fails first (its offset lies beyond the source), Parse fails with the I/O
error — not with the sub-directory-not-found error the claim requires for
the missing GPSInfo pointer. -/
theorem parse_subdirectory_routing_counterexample :
    (∃ i ∈ ([0x829a, 2] : List Nat), lookupGroup bothMapping i = some .gpsInfo) ∧
    collect bothDemo .little 0 0 (partitionWanted bothMapping [0x829a, 2]).1 =
      (.ok [(0x8769, ⟨0x8769, 4, 1, 9999, .u32v 9999⟩)], 14, 1) ∧
    lookupEntry [(0x8769, ⟨0x8769, 4, 1, 9999, .u32v 9999⟩)] gpsInfoID = none ∧
    parse bothDemo .little bothMapping 0 [0x829a, 2] 0 = (.error .ioFailure, 9999) :=
  ⟨⟨2, by decide, rfl⟩, rfl, rfl, rfl⟩

/-- C4 (amended): for every Parse call whose requested identifiers include
one mapped to the Exif group: if the successful root scan did not produce
the Exif pointer entry, Parse fails with the sub-directory-not-found error,
and when the pointer entry is present Parse collects the sub-directory at
its decoded offset and, when that collect succeeds, merges its results into
the returned map — also when GPSInfo identifiers are requested in the same
call.  The same holds for GPSInfo, except that its missing-pointer failure
is the sub-directory-not-found error only when the Exif phase did not itself
fail first (no Exif identifiers requested, or the Exif pointer present and
its collect successful); when the Exif phase fails, Parse returns that
earlier error instead. -/
theorem parse_subdirectory_routing (d : List Nat) (bo : ByteOrder) (mapping : Mapping)
    (f : Nat) (ids : List Nat) (pos : Nat) (m0 : EntryMap) (p0 c0 : Nat)
    (hc0 : collect d bo pos f (partitionWanted mapping ids).1 = (.ok m0, p0, c0)) :
    ((∃ i ∈ ids, lookupGroup mapping i = some .exif) → lookupEntry m0 exifID = none →
      parse d bo mapping f ids pos = (.error .subDirectoryNotFound, p0)) ∧
    ((∃ i ∈ ids, lookupGroup mapping i = some .gpsInfo) →
      (∀ i ∈ ids, lookupGroup mapping i ≠ some .exif) →
      lookupEntry m0 gpsInfoID = none →
      parse d bo mapping f ids pos = (.error .subDirectoryNotFound, p0)) ∧
    (∀ e mE pE cE, (∃ i ∈ ids, lookupGroup mapping i = some .exif) →
      (∃ i ∈ ids, lookupGroup mapping i = some .gpsInfo) →
      lookupEntry m0 exifID = some e →
      collect d bo p0 e.rawValue (partitionWanted mapping ids).2.1 = (.ok mE, pE, cE) →
      lookupEntry m0 gpsInfoID = none →
      parse d bo mapping f ids pos = (.error .subDirectoryNotFound, pE)) ∧
    (∀ e mE pE cE, (∃ i ∈ ids, lookupGroup mapping i = some .exif) →
      (∀ i ∈ ids, lookupGroup mapping i ≠ some .gpsInfo) →
      lookupEntry m0 exifID = some e →
      collect d bo p0 e.rawValue (partitionWanted mapping ids).2.1 = (.ok mE, pE, cE) →
      parse d bo mapping f ids pos =
        (.ok (mergeEntries (m0.filter fun pr => pr.1 != exifID && pr.1 != gpsInfoID) mE),
          pE)) ∧
    (∀ e mE pE cE g mG pG cG, (∃ i ∈ ids, lookupGroup mapping i = some .exif) →
      (∃ i ∈ ids, lookupGroup mapping i = some .gpsInfo) →
      lookupEntry m0 exifID = some e →
      collect d bo p0 e.rawValue (partitionWanted mapping ids).2.1 = (.ok mE, pE, cE) →
      lookupEntry m0 gpsInfoID = some g →
      collect d bo pE g.rawValue (partitionWanted mapping ids).2.2 = (.ok mG, pG, cG) →
      parse d bo mapping f ids pos =
        (.ok (mergeEntries
          (mergeEntries (m0.filter fun pr => pr.1 != exifID && pr.1 != gpsInfoID) mE)
          mG), pG)) ∧
    (∀ g mG pG cG, (∃ i ∈ ids, lookupGroup mapping i = some .gpsInfo) →
      (∀ i ∈ ids, lookupGroup mapping i ≠ some .exif) →
      lookupEntry m0 gpsInfoID = some g →
      collect d bo p0 g.rawValue (partitionWanted mapping ids).2.2 = (.ok mG, pG, cG) →
      parse d bo mapping f ids pos =
        (.ok (mergeEntries (m0.filter fun pr => pr.1 != exifID && pr.1 != gpsInfoID) mG),
          pG)) := by
  have hExNe : (∃ i ∈ ids, lookupGroup mapping i = some .exif) →
      (partitionWanted mapping ids).2.1.ids ≠ [] := by
    rintro ⟨i, hi, hx⟩ hnil
    obtain ⟨_, hall⟩ := partition_exif_nil mapping ids (⟨[], 0⟩, ⟨[], 0⟩, ⟨[], 0⟩) hnil
    exact hall i hi hx
  have hGpsNe : (∃ i ∈ ids, lookupGroup mapping i = some .gpsInfo) →
      (partitionWanted mapping ids).2.2.ids ≠ [] := by
    rintro ⟨i, hi, hx⟩ hnil
    obtain ⟨_, hall⟩ := partition_gps_nil mapping ids (⟨[], 0⟩, ⟨[], 0⟩, ⟨[], 0⟩) hnil
    exact hall i hi hx
  have hExNil : (∀ i ∈ ids, lookupGroup mapping i ≠ some .exif) →
      (partitionWanted mapping ids).2.1.ids = [] := by
    intro hall
    rw [partitionWanted,
      partition_exif_stable mapping ids (⟨[], 0⟩, ⟨[], 0⟩, ⟨[], 0⟩) hall]
  have hGpsNil : (∀ i ∈ ids, lookupGroup mapping i ≠ some .gpsInfo) →
      (partitionWanted mapping ids).2.2.ids = [] := by
    intro hall
    rw [partitionWanted,
      partition_gps_stable mapping ids (⟨[], 0⟩, ⟨[], 0⟩, ⟨[], 0⟩) hall]
  refine ⟨?_, ?_, ?_, ?_, ?_, ?_⟩
  · intro hEx habs
    simp only [parse, hc0, if_neg (hExNe hEx), habs]
  · intro hGps hNoEx habs
    simp only [parse, hc0, if_pos (hExNil hNoEx), gpsPhase, if_neg (hGpsNe hGps), habs]
  · intro e mE pE cE hEx hGps he hcE habs
    simp only [parse, hc0, if_neg (hExNe hEx), he, hcE, gpsPhase,
      if_neg (hGpsNe hGps), habs]
  · intro e mE pE cE hEx hNoGps he hcE
    simp only [parse, hc0, if_neg (hExNe hEx), he, hcE, gpsPhase,
      if_pos (hGpsNil hNoGps)]
  · intro e mE pE cE g mG pG cG hEx hGps he hcE hg hcG
    simp only [parse, hc0, if_neg (hExNe hEx), he, hcE, gpsPhase,
      if_neg (hGpsNe hGps), hg, hcG]
  · intro g mG pG cG hGps hNoEx hg hcG
    simp only [parse, hc0, if_pos (hExNil hNoEx), gpsPhase, if_neg (hGpsNe hGps), hg,
      hcG]

/-- Witness for C4 on the concrete two-pointer fixture: a Parse call
requesting an Exif-mapped and a GPSInfo-mapped identifier collects both
sub-directories at their pointers' decoded offsets and merges both result
sets into the returned map. -/
theorem parse_subdirectory_routing_witness :
    parse bothOkDemo .little bothMapping 0 [0x829a, 2] 0 =
      (.ok [(0x829a, ⟨0x829a, 3, 1, 7, .u16v 7⟩), (2, ⟨2, 3, 1, 9, .u16v 9⟩)], 54) := by
  have h := (parse_subdirectory_routing bothOkDemo .little bothMapping 0
    [0x829a, 2] 0
    [(0x8769, ⟨0x8769, 4, 1, 26, .u32v 26⟩), (0x8825, ⟨0x8825, 4, 1, 40, .u32v 40⟩)]
    26 2 rfl).2.2.2.2.1
    ⟨0x8769, 4, 1, 26, .u32v 26⟩ [(0x829a, ⟨0x829a, 3, 1, 7, .u16v 7⟩)] 40 1
    ⟨0x8825, 4, 1, 40, .u32v 40⟩ [(2, ⟨2, 3, 1, 9, .u16v 9⟩)] 54 1
    ⟨0x829a, by decide, rfl⟩ ⟨2, by decide, rfl⟩ rfl rfl rfl rfl
  rw [h]
  rfl

end Tiff








